import Mathlib

/-!
Shallow embedding of the Levenberg-Marquardt optimization core of
src/cbamf/opt/optimize.py (repository jhkoivis/peri), together with
theorems settling the frozen claims about it.

Numeric model: Python floats are modelled as rationals; numpy float
3-arrays as records of three rationals.  External collaborators (the
model state s and its difference image, np.linalg.lstsq, and scipy's
minimize_scalar) enter as oracle function parameters; everything the
repository itself computes is embedded from the source.
-/

/-- A 3-vector of rationals (a numpy float 3-array). -/
structure QVec3 where
  x : ℚ
  y : ℚ
  z : ℚ
deriving DecidableEq, Repr

instance : Add QVec3 := ⟨fun a b => ⟨a.x + b.x, a.y + b.y, a.z + b.z⟩⟩

instance : Neg QVec3 := ⟨fun a => ⟨-a.x, -a.y, -a.z⟩⟩

instance : Sub QVec3 := ⟨fun a b => ⟨a.x - b.x, a.y - b.y, a.z - b.z⟩⟩

/-- np.clip on one scalar: min(max(v, lo), hi). -/
def clipQ (v lo hi : ℚ) : ℚ := min (max v lo) hi

/-- Componentwise np.clip on 3-vectors. -/
def clipV (v lo hi : QVec3) : QVec3 :=
  ⟨clipQ v.x lo.x hi.x, clipQ v.y lo.y hi.y, clipQ v.z lo.z hi.z⟩

/-- The constant 3-vector. -/
def constV (q : ℚ) : QVec3 := ⟨q, q, q⟩

/-- The 1e-6 epsilon that update_one_particle uses when clipping bad updates. -/
def fixEps : ℚ := 1 / 1000000

/-- One particle of the model state: position, radius and type
(s.obj.pos[i], s.obj.rad[i], s.obj.typ[i]). -/
structure Particle where
  pos : QVec3
  rad : ℚ
  typ : ℚ
deriving DecidableEq, Repr

/-- optimize.py line 554: is_bad_update = lambda p, r: np.any(p < 0) or
np.any(p > np.array(s.image.shape)) or np.any(r < 0). -/
def is_bad_update (shape p : QVec3) (r : ℚ) : Bool :=
  (decide (p.x < 0) || decide (p.y < 0) || decide (p.z < 0)) ||
  (decide (shape.x < p.x) || decide (shape.y < p.y) || decide (shape.z < p.z)) ||
  decide (r < 0)

/-- optimize.py lines 508-589, update_one_particle, restricted to the particle
parameters it changes.  The tile bookkeeping (s._tile_from_particle_change,
s._update_tile, s._build_state) only touches the external model's cached
image, not the particle parameters, so it is not part of this embedding.
typ = none models the Python default typ=None (keep the previous type).
np.clip(rad, lo, np.inf) is max rad lo. -/
def update_one_particle (shape : QVec3) (part : Particle) (pos : QVec3) (rad : ℚ)
    (typ : Option ℚ) (relative fix_errors : Bool) : Except String Particle :=
  let p0 := part.pos
  let r0 := part.rad
  let t0 := part.typ
  let pr : QVec3 × ℚ :=
    if fix_errors then
      if relative then
        if is_bad_update shape (p0 + pos) (r0 + rad) then
          (clipV pos (constV fixEps - p0) (shape - constV fixEps - p0),
           max rad (fixEps - r0))
        else (pos, rad)
      else
        if is_bad_update shape pos rad then
          (clipV pos (constV fixEps) (shape - constV fixEps), max rad fixEps)
        else (pos, rad)
    else (pos, rad)
  let t1 := typ.getD t0
  let p1 := if relative then p0 + pr.1 else pr.1
  let r1 := if relative then r0 + pr.2 else pr.2
  if is_bad_update shape p1 r1 then
    Except.error "Particle outside image or negative radius"
  else
    Except.ok ⟨p1, r1, t1⟩

/-- Python int() on a float: truncation toward zero, modelled on ℚ. -/
def pyInt (q : ℚ) : ℤ := if 0 ≤ q then ⌊q⌋ else ⌈q⌉

/-- optimize.py lines 220-231, get_num_px_jtj.  interiorSize is
s.image[s.inner].size.  decimate, max_mem and min_redundant are documented as
float scalars and modelled as rationals; px_mem carries the source's int()
truncation.  np.clip(a, lo, hi) is min (max a lo) hi. -/
def get_num_px_jtj (interiorSize : ℕ) (nparams : ℕ)
    (decimate max_mem min_redundant : ℚ) : Except String ℚ :=
  let px_mem : ℤ := pyInt (max_mem / 8 / (nparams : ℚ))
  let px_red : ℚ := min_redundant * (nparams : ℚ)
  let px_dec : ℚ := (interiorSize : ℚ) / decimate
  if px_red > (px_mem : ℚ) then
    Except.error "Insufficient max_mem for desired redundancy"
  else
    Except.ok (min (max px_dec px_red) (px_mem : ℚ))

/-- An integer 3-vector (image-lattice coordinates and region sizes). -/
structure IVec3 where
  x : ℤ
  y : ℤ
  z : ℤ
deriving DecidableEq, Repr

instance : Add IVec3 := ⟨fun a b => ⟨a.x + b.x, a.y + b.y, a.z + b.z⟩⟩

/-- cbamf.util.Tile as this core uses it: a left and a right corner. -/
structure Tile where
  l : IVec3
  r : IVec3
deriving DecidableEq, Repr

/-- Componentwise min of two integer 3-vectors. -/
def vmin (a b : IVec3) : IVec3 := ⟨min a.x b.x, min a.y b.y, min a.z b.z⟩

/-- Componentwise max of two integer 3-vectors. -/
def vmax (a b : IVec3) : IVec3 := ⟨max a.x b.x, max a.y b.y, max a.z b.z⟩

/-- np.min(vs, axis=0) over a list of 3-vectors; call sites never pass []. -/
def listVMin : List IVec3 → IVec3
  | [] => ⟨0, 0, 0⟩
  | a :: t => t.foldl vmin a

/-- np.max(vs, axis=0) over a list of 3-vectors; call sites never pass []. -/
def listVMax : List IVec3 → IVec3
  | [] => ⟨0, 0, 0⟩
  | a :: t => t.foldl vmax a

/-- optimize.py lines 709-727, get_tile_from_multiple_particle_change.
tileOf i is the outer tile that the external model's
s._tile_from_particle_change returns for the null change of particle i. -/
def get_tile_from_multiple_particle_change (tileOf : ℕ → Tile)
    (inds : List ℕ) : Tile :=
  let all_left := inds.map (fun i => (tileOf i).l)
  let all_right := inds.map (fun i => (tileOf i).r)
  ⟨listVMin all_left, listVMax all_right⟩

/-- Python range(b, e, s) for a positive step s: b, b+s, ... while < e. -/
def pyRange (b e s : ℤ) : List ℤ :=
  (List.range (((e - b + s - 1).ediv s).toNat)).map (fun (k : ℕ) => b + (k : ℤ) * s)

/-- optimize.py line 702: box membership of one particle position, strict at
the lower corner and inclusive at the upper one, axis by axis:
(pos > bounds[0]) & (pos <= bounds[1]). -/
def in_box (p lo hi : QVec3) : Bool :=
  (decide (lo.x < p.x) && decide (p.x ≤ hi.x)) &&
  (decide (lo.y < p.y) && decide (p.y ≤ hi.y)) &&
  (decide (lo.z < p.z) && decide (p.z ≤ hi.z))

/-- optimize.py lines 684-704, find_particles_in_box: indices of the
particles inside the bounds.  ps is s.obj.pos as a list of positions. -/
def find_particles_in_box (ps : List QVec3) (lo hi : QVec3) : List ℕ :=
  (List.range ps.length).filter (fun j => in_box (ps.getD j ⟨0, 0, 0⟩) lo hi)

/-- Integer corners cast to rational coordinates for comparisons. -/
def toQVec (v : IVec3) : QVec3 := ⟨(v.x : ℚ), (v.y : ℚ), (v.z : ℚ)⟩

/-- optimize.py lines 910-963, separate_particles_into_groups: the grid of
boxes [start, start+rs] with starts range(bounds[0][i], bounds[1][i], rs[i]),
one candidate group per box through find_particles_in_box, keeping the
groups with more than zero particles. -/
def separate_particles_into_groups (ps : List QVec3) (rs : IVec3)
    (b0 b1 : IVec3) : List (List ℕ) :=
  let pts0 := pyRange b0.x b1.x rs.x
  let pts1 := pyRange b0.y b1.y rs.y
  let pts2 := pyRange b0.z b1.z rs.z
  let all_boxes := pts0.bind (fun s0 => pts1.bind (fun s1 => pts2.map (fun s2 =>
    (⟨s0, s1, s2⟩ : IVec3))))
  (all_boxes.map (fun b =>
    find_particles_in_box ps (toQVec b) (toQVec (b + rs)))).filter
    (fun g => decide (0 < g.length))

/-- The bracket-extension while-loop of do_line_min (lines 480-483 and
488-492): triple the step, stop at the first value whose error is not below
the original endpoint error old.  Fueled, since for an arbitrary error
oracle the Python loop need not terminate. -/
def extendLoop (f : ℚ → ℚ) (old : ℚ) : ℕ → ℚ → Option ℚ
  | 0, _ => none
  | Nat.succ n, start =>
    let start2 := 3 * start
    if f start2 < old then extendLoop f old n start2 else some start2

/-- The bracket that do_line_min constructs (optimize.py lines 470-495). -/
def bracketOf (f : ℚ → ℚ) (fuel : ℕ) : Option (List ℚ) :=
  let brk0 := f (-2)
  let brk1 := f 2
  let cnt_val := f 0
  if cnt_val > min brk0 brk1 then
    if brk0 < brk1 then (extendLoop f brk0 fuel (-2)).map (fun s => [s, -2, 0])
    else (extendLoop f brk1 fuel 2).map (fun s => [0, 2, s])
  else some [-2, 0, 2]

/-- optimize.py lines 457-503, do_line_min.  f x is get_err after
update_state_global(s, block, p0 + x*vec); the model is deterministic, so f
is a pure function of the scalar step.  brent models the external scipy
minimize_scalar, returning (res.x, res.fun) for a bracket.  Returns the
finally applied step res.x, or the raised RuntimeError. -/
def do_line_min (f : ℚ → ℚ) (brent : List ℚ → ℚ × ℚ) (fuel : ℕ) :
    Except String ℚ :=
  let start_err := f 0
  match bracketOf f fuel with
  | none => Except.error "bracket extension did not terminate"
  | some bracket =>
    let res := brent bracket
    if res.2 ≤ start_err then Except.ok res.1 else Except.error "wtf"

/-- The state threaded through one do_levmarq call: free parameters (an
abstract additive type P), the damping pair, the fractional iteration
counter, the recalc_J flag, and the cached J and gradient data. -/
structure LMState (P J G : Type) where
  p : P
  damp : ℚ
  ddamp : ℚ
  counter : ℚ
  recalcJ : Bool
  Jv : J
  gradv : G

/-- optimize.py lines 310-326, do_internal_run of do_levmarq: up to
run_length steps reusing J/JTJ, stopping at (and rolling back) the first
step that increases the error. -/
def internal_run {P J G : Type} [Add P] (computeGrad : J → P → G)
    (solve : J → G → ℚ → P) (err : P → ℚ) (Jv : J) (damp : ℚ) :
    ℕ → P → P
  | 0, p => p
  | Nat.succ n, p =>
    let g := computeGrad Jv p
    let dnew := solve Jv g damp
    let old_err := err p
    let pnew := p + dnew
    let new_err := err pnew
    if new_err > old_err then p
    else internal_run computeGrad solve err Jv damp n pnew

/-- One outer iteration of do_levmarq (optimize.py lines 331-373).
computeJ bundles get_rand_Japprox and j_to_jtj (the sampled pixel set and
JTJ, a function of the state where it is computed); computeGrad is
calc_im_grad; solve is find_LM_updates; err is get_err, a pure function of
the free parameters since the model is deterministic. -/
def do_levmarq_step {P J G : Type} [Add P] (computeJ : P → J)
    (computeGrad : J → P → G) (solve : J → G → ℚ → P) (err : P → ℚ)
    (do_run : Bool) (run_length : ℕ) (st : LMState P J G) : LMState P J G :=
  let p0 := st.p
  let err_start := err p0
  let Jv := if st.recalcJ then computeJ p0 else st.Jv
  let gradv := if st.recalcJ then computeGrad Jv p0 else st.gradv
  let d0 := solve Jv gradv st.damp
  let d1 := solve Jv gradv (st.damp * st.ddamp)
  let err0 := err (p0 + d0)
  let err1 := err (p0 + d1)
  if min err0 err1 > err_start then
    { p := p0, recalcJ := false, counter := st.counter + 1 / 10,
      ddamp := if err0 < err1 then st.ddamp⁻¹ else st.ddamp,
      damp := if err0 < err1 then st.damp else st.damp * (st.ddamp * st.ddamp),
      Jv := Jv, gradv := gradv }
  else
    let pGood := if err0 < err1 then p0 + d0 else p0 + d1
    let dampGood := if err0 < err1 then st.damp else st.damp * st.ddamp
    let pRun := if do_run then
        internal_run computeGrad solve err Jv dampGood run_length pGood
      else pGood
    { p := pRun, damp := dampGood, ddamp := st.ddamp,
      counter := st.counter + 1, recalcJ := true, Jv := Jv, gradv := gradv }

/-- The while counter < num_iter loop of do_levmarq, fueled (each iteration
adds at least 1/10 to the counter, so a large enough fuel always exists). -/
def do_levmarq_loop {P J G : Type} [Add P] (computeJ : P → J)
    (computeGrad : J → P → G) (solve : J → G → ℚ → P) (err : P → ℚ)
    (do_run : Bool) (run_length : ℕ) (num_iter : ℚ) :
    ℕ → LMState P J G → LMState P J G
  | 0, st => st
  | Nat.succ n, st =>
    if st.counter < num_iter then
      do_levmarq_loop computeJ computeGrad solve err do_run run_length num_iter
        n (do_levmarq_step computeJ computeGrad solve err do_run run_length st)
    else st

/-- A per-particle relative update (three position components and a radius),
one 4-slice of the delta vector of do_levmarq_particles. -/
structure PDelta where
  dpos : QVec3
  drad : ℚ
deriving DecidableEq, Repr

/-- Elementwise negation of a delta vector. -/
def negD (d : List PDelta) : List PDelta := d.map (fun a => ⟨-a.dpos, -a.drad⟩)

/-- Elementwise difference of two delta vectors. -/
def zipSub (a b : List PDelta) : List PDelta :=
  List.zipWith (fun u v => (⟨u.dpos - v.dpos, u.drad - v.drad⟩ : PDelta)) a b

/-- optimize.py lines 729-774, update_particles: one relative (pos, rad)
update per particle through update_one_particle (relative=True); the tile
and field bookkeeping again only touches the external model's cached
image, not the particle parameters. -/
def update_particles (shape : QVec3) (fix_errors : Bool) :
    List Particle → List PDelta → Except String (List Particle)
  | [], _ => Except.ok []
  | _ :: _, [] => Except.ok []
  | q :: qs, d :: ds => do
    let q2 ← update_one_particle shape q d.dpos d.drad none true fix_errors
    let rest ← update_particles shape fix_errors qs ds
    pure (q2 :: rest)

/-- The particle-local LM state of do_levmarq_particles: the group's
particles, the damping pair, the fractional counter, recalc_J, the cached J
data, and two observability flags for the rejected-step consistency check
(warnings.warn and s.reset(); s.reset() recomputes the external model's
cached fields and leaves the particle parameters unchanged). -/
structure PLMState (J : Type) where
  parts : List Particle
  damp : ℚ
  ddamp : ℚ
  counter : ℚ
  recalcJ : Bool
  Jv : J
  warned : Bool
  didReset : Bool
deriving DecidableEq

/-- optimize.py lines 831-850, do_internal_run of do_levmarq_particles:
steps reuse J/JTJ; a worsening step is undone by applying the negated delta
(with fix_errors=True) and the run stops. -/
def p_internal_run {J G : Type} (shape : QVec3)
    (computeGrad : J → List Particle → G)
    (solve : J → G → ℚ → List PDelta) (err : List Particle → ℚ) (Jv : J)
    (damp : ℚ) : ℕ → List Particle → Except String (List Particle)
  | 0, ps => Except.ok ps
  | Nat.succ n, ps => do
    let g := computeGrad Jv ps
    let dnew := solve Jv g damp
    let old_err := err ps
    let ps1 ← update_particles shape true ps dnew
    let new_err := err ps1
    if new_err > old_err then
      update_particles shape true ps1 (negD dnew)
    else
      p_internal_run shape computeGrad solve err Jv damp n ps1

/-- One outer iteration of do_levmarq_particles (optimize.py lines 852-908).
computeJ bundles get_tile_from_multiple_particle_change,
eval_many_particle_grad and j_to_jtj; computeGrad is the
J.dot(get_slicered_difference(...)) of lines 864-865 (recomputed every
iteration, with the possibly cached J); solve is find_LM_updates; err is
get_err.  The rejected branch applies the relative rollback -(d1-d0)-d0
with the default fix_errors=False, then warns and calls s.reset() exactly
when the re-measured error exceeds err_start + 1e-3.  The accepted branch
with err0 < err1 re-applies d1md0 with the default fix_errors=False,
exactly as line 900 does. -/
def do_levmarq_particles_step {J G : Type} (shape : QVec3)
    (computeJ : List Particle → J) (computeGrad : J → List Particle → G)
    (solve : J → G → ℚ → List PDelta) (err : List Particle → ℚ)
    (do_run : Bool) (run_length : ℕ) (st : PLMState J) :
    Except String (PLMState J) := do
  let err_start := err st.parts
  let Jv := if st.recalcJ then computeJ st.parts else st.Jv
  let gradv := computeGrad Jv st.parts
  let d0 := solve Jv gradv st.damp
  let d1 := solve Jv gradv (st.damp * st.ddamp)
  let parts1 ← update_particles shape true st.parts d0
  let err0 := err parts1
  let d1md0 := zipSub d1 d0
  let parts2 ← update_particles shape true parts1 d1md0
  let err1 := err parts2
  if min err0 err1 > err_start then do
    let parts3 ← update_particles shape false parts2 (zipSub (negD d1md0) d0)
    let bad := decide (err parts3 > err_start + 1 / 1000)
    pure ({ parts := parts3, recalcJ := false,
            counter := st.counter + 1 / 10,
            warned := bad, didReset := bad,
            ddamp := if err0 < err1 then st.ddamp⁻¹ else st.ddamp,
            damp := if err0 < err1 then st.damp
              else st.damp * (st.ddamp * st.ddamp),
            Jv := Jv } : PLMState J)
  else do
    let partsG ← if err0 < err1 then update_particles shape false parts2 d1md0
      else pure parts2
    let dampG := if err0 < err1 then st.damp else st.damp * st.ddamp
    let partsR ← if do_run then
        p_internal_run shape computeGrad solve err Jv dampG run_length partsG
      else pure partsG
    pure ({ parts := partsR, damp := dampG, ddamp := st.ddamp,
            counter := st.counter + 1, recalcJ := true, Jv := Jv,
            warned := false, didReset := false } : PLMState J)

/-- A 10x10x10 image shape used by the concrete scenarios below. -/
def shape10 : QVec3 := ⟨10, 10, 10⟩

/-- Error oracle of the C1 failing input: one particle whose error depends
only on its x coordinate: 3 at x=5 (the start), 1 at x=6 (after d0), 2 at
x=7 (after d0+(d1-d0)), 100 at x=8 (after line 900 re-applies d1-d0). -/
def errC1 : List Particle → ℚ
  | [q] =>
    if q.pos.x = 5 then 3
    else if q.pos.x = 6 then 1
    else if q.pos.x = 7 then 2
    else if q.pos.x = 8 then 100
    else 0
  | _ => 0

/-- Solver oracle of the C1 failing input: relative step (1,0,0,0) at
damping 1/10 (damp) and (2,0,0,0) at any other damping (damp*ddamp). -/
def solveC1 : Unit → Unit → ℚ → List PDelta :=
  fun _ _ dmp => if dmp = 1 / 10 then [⟨⟨1, 0, 0⟩, 0⟩] else [⟨⟨2, 0, 0⟩, 0⟩]

/-- Start state shared by the concrete particle scenarios: one particle at
(5,5,5) with radius 1, damp 1/10, ddamp 1/5 (the do_levmarq_particles
defaults 0.1 and 0.2), counter 0, recalc_J true. -/
def stP0 : PLMState Unit :=
  { parts := [⟨⟨5, 5, 5⟩, 1, 1⟩], damp := 1 / 10, ddamp := 1 / 5, counter := 0,
    recalcJ := true, Jv := (), warned := false, didReset := false }

/-- Error oracle of the C3 counterexample: err 10 at the start x=5, 20 at
the clamped x=1e-6, 30 at y=6 (after d1-d0), and 1 anywhere else, so the
algebraic rollback lands on an error far below err_start. -/
def errC3 : List Particle → ℚ
  | [q] =>
    if q.pos.x = 5 then 10
    else if q.pos.x = 1 / 1000000 then 20
    else if q.pos.y = 6 then 30
    else 1
  | _ => 0

/-- Solver oracle of the C3 scenarios: relative step (-6,0,0,0) at damping
1/10 (clamped at the image edge) and (0,1,0,0) at any other damping. -/
def solveC3 : Unit → Unit → ℚ → List PDelta :=
  fun _ _ dmp => if dmp = 1 / 10 then [⟨⟨-6, 0, 0⟩, 0⟩] else [⟨⟨0, 1, 0⟩, 0⟩]

/-- Error oracle of the C3 witness: like errC3 but the rollback point has
error 100, above err_start + 1e-3, so the reset path is taken. -/
def errC3w : List Particle → ℚ
  | [q] =>
    if q.pos.x = 5 then 10
    else if q.pos.x = 1 / 1000000 then 20
    else if q.pos.y = 6 then 30
    else 100
  | _ => 0

/-- Solver oracle of the do_levmarq scenarios on P = ℚ: the returned step
equals the damping argument, so the two trials differ whenever
damp differs from damp*ddamp. -/
def solveDamp : Unit → Unit → ℚ → ℚ := fun _ _ dmp => dmp

/-- Constant-zero error oracle on P = ℚ: err_start = err0 = err1, an exact
two-trial tie inside a good step. -/
def errZero : ℚ → ℚ := fun _ => 0

/-- Error oracle of the C4 witness: 3 at the start p=0 and 10 elsewhere, so
both trials are rejected. -/
def errBad : ℚ → ℚ := fun p => if p = 0 then 3 else 10

/-- Error oracle of the C2 witness: 1 at p=1/10, 2 at p=1/100, 3 elsewhere,
so err0 = 1 < err1 = 2 with a good step from err_start = 3. -/
def errGood : ℚ → ℚ :=
  fun p => if p = 1 / 10 then 1 else if p = 1 / 100 then 2 else 3

/-- Start state of the do_levmarq scenarios: p = 0, damp 1/10, ddamp 1/10
(the do_levmarq defaults), counter 0, recalc_J true. -/
def stQ0 : LMState ℚ Unit Unit :=
  { p := 0, damp := 1 / 10, ddamp := 1 / 10, counter := 0, recalcJ := true,
    Jv := (), gradv := () }

/-- Quadratic error oracle x^2 of the do_line_min witness: a valid
three-point bracket around 0 with no extension needed. -/
def sqErr : ℚ → ℚ := fun x => x * x

/-- Brent oracle of the do_line_min witness: returns the true minimum
(x = 0, value 0) for any bracket. -/
def brentZero : List ℚ → ℚ × ℚ := fun _ => (0, 0)

/-- Trivial J oracle on P = ℚ (the J data is irrelevant to the scenarios). -/
def unitJ : ℚ → Unit := fun _ => ()

/-- Trivial gradient oracle on P = ℚ. -/
def unitG : Unit → ℚ → Unit := fun _ _ => ()

/-- Trivial J oracle for the particle scenarios. -/
def unitPJ : List Particle → Unit := fun _ => ()

/-- Trivial gradient oracle for the particle scenarios. -/
def unitPG : Unit → List Particle → Unit := fun _ _ => ()

theorem clipQ_le_hi (v lo hi : ℚ) : clipQ v lo hi ≤ hi := min_le_right _ _

theorem lo_le_clipQ (v lo hi : ℚ) (h : lo ≤ hi) : lo ≤ clipQ v lo hi :=
  le_min (le_max_right _ _) h

@[simp] theorem QVec3.add_x (a b : QVec3) : (a + b).x = a.x + b.x := rfl

@[simp] theorem QVec3.add_y (a b : QVec3) : (a + b).y = a.y + b.y := rfl

@[simp] theorem QVec3.add_z (a b : QVec3) : (a + b).z = a.z + b.z := rfl

@[simp] theorem QVec3.sub_x (a b : QVec3) : (a - b).x = a.x - b.x := rfl

@[simp] theorem QVec3.sub_y (a b : QVec3) : (a - b).y = a.y - b.y := rfl

@[simp] theorem QVec3.sub_z (a b : QVec3) : (a - b).z = a.z - b.z := rfl

@[simp] theorem QVec3.neg_x (a : QVec3) : (-a).x = -a.x := rfl

@[simp] theorem QVec3.neg_y (a : QVec3) : (-a).y = -a.y := rfl

@[simp] theorem QVec3.neg_z (a : QVec3) : (-a).z = -a.z := rfl

@[simp] theorem clipV_x (v lo hi : QVec3) : (clipV v lo hi).x = clipQ v.x lo.x hi.x := rfl

@[simp] theorem clipV_y (v lo hi : QVec3) : (clipV v lo hi).y = clipQ v.y lo.y hi.y := rfl

@[simp] theorem clipV_z (v lo hi : QVec3) : (clipV v lo hi).z = clipQ v.z lo.z hi.z := rfl

@[simp] theorem constV_x (q : ℚ) : (constV q).x = q := rfl

@[simp] theorem constV_y (q : ℚ) : (constV q).y = q := rfl

@[simp] theorem constV_z (q : ℚ) : (constV q).z = q := rfl

theorem is_bad_update_true_iff (shape p : QVec3) (r : ℚ) :
    is_bad_update shape p r = true ↔
      ((p.x < 0 ∨ p.y < 0 ∨ p.z < 0) ∨
       (shape.x < p.x ∨ shape.y < p.y ∨ shape.z < p.z) ∨ r < 0) := by
  simp [is_bad_update, or_assoc]

theorem is_bad_update_false_iff (shape p : QVec3) (r : ℚ) :
    is_bad_update shape p r = false ↔
      ((0 ≤ p.x ∧ 0 ≤ p.y ∧ 0 ≤ p.z) ∧
       (p.x ≤ shape.x ∧ p.y ≤ shape.y ∧ p.z ≤ shape.z) ∧ 0 ≤ r) := by
  rw [← Bool.not_eq_true, is_bad_update_true_iff]
  push_neg
  tauto

theorem update_one_particle_no_fix_eq (shape : QVec3) (part : Particle)
    (pos : QVec3) (rad : ℚ) (typ : Option ℚ) (relative : Bool) :
    update_one_particle shape part pos rad typ relative false =
      (if is_bad_update shape (if relative then part.pos + pos else pos)
          (if relative then part.rad + rad else rad)
       then Except.error "Particle outside image or negative radius"
       else Except.ok ⟨(if relative then part.pos + pos else pos),
         (if relative then part.rad + rad else rad), typ.getD part.typ⟩) := by
  cases relative <;> rfl

/-- C6 counterexample: with fix_errors=False, a proposed update that leaves the
radius exactly 0 (non-positive) succeeds: is_bad_update only tests rad < 0
strictly, so no error is raised, contradicting the claim that any
non-positive-radius update raises. -/
theorem update_one_particle_zero_radius_no_raise :
    update_one_particle ⟨10, 10, 10⟩ ⟨⟨5, 5, 5⟩, 1, 1⟩ ⟨5, 5, 5⟩ 0 none false false =
      Except.ok ⟨⟨5, 5, 5⟩, 0, 1⟩ ∧ ¬ (0 : ℚ) < 0 := by
  exact ⟨rfl, by norm_num⟩

/-- C6 (amended): update_one_particle with fix_errors=False raises exactly when
the proposed absolute or relative update leaves some position coordinate
strictly below 0 or strictly above the image shape, or leaves a strictly
negative radius (boundary values, including radius exactly 0, are accepted);
with fix_errors=True (and an image at least 2e-6 wide on each axis) the update
is clamped when needed and the call always succeeds. -/
theorem update_one_particle_error_iff (shape : QVec3) (part : Particle)
    (pos : QVec3) (rad : ℚ) (typ : Option ℚ) (relative : Bool)
    (hx : 2 * fixEps ≤ shape.x) (hy : 2 * fixEps ≤ shape.y)
    (hz : 2 * fixEps ≤ shape.z) :
    ((∃ e, update_one_particle shape part pos rad typ relative false =
        Except.error e) ↔
      ((((if relative then part.pos + pos else pos).x < 0 ∨
         (if relative then part.pos + pos else pos).y < 0 ∨
         (if relative then part.pos + pos else pos).z < 0) ∨
        (shape.x < (if relative then part.pos + pos else pos).x ∨
         shape.y < (if relative then part.pos + pos else pos).y ∨
         shape.z < (if relative then part.pos + pos else pos).z) ∨
        (if relative then part.rad + rad else rad) < 0))) ∧
    (∃ p', update_one_particle shape part pos rad typ relative true =
      Except.ok p') := by
  have heps : (0 : ℚ) < fixEps := by norm_num [fixEps]
  constructor
  · rw [update_one_particle_no_fix_eq, ← is_bad_update_true_iff]
    cases hbad : is_bad_update shape (if relative then part.pos + pos else pos)
        (if relative then part.rad + rad else rad) with
    | false => simp
    | true => simp
  · cases relative with
    | true =>
      show (∃ p', update_one_particle shape part pos rad typ true true = Except.ok p')
      cases hbad : is_bad_update shape (part.pos + pos) (part.rad + rad) with
      | false =>
        refine ⟨⟨part.pos + pos, part.rad + rad, typ.getD part.typ⟩, ?_⟩
        unfold update_one_particle
        simp only [hbad, if_true, if_false, Bool.false_eq_true, if_neg, ite_false,
          ite_true]
      | true =>
        have hgood : is_bad_update shape
            (part.pos + clipV pos (constV fixEps - part.pos)
              (shape - constV fixEps - part.pos))
            (part.rad + max rad (fixEps - part.rad)) = false := by
          rw [is_bad_update_false_iff]
          have hcx := lo_le_clipQ pos.x (fixEps - part.pos.x)
            (shape.x - fixEps - part.pos.x) (by linarith)
          have hcy := lo_le_clipQ pos.y (fixEps - part.pos.y)
            (shape.y - fixEps - part.pos.y) (by linarith)
          have hcz := lo_le_clipQ pos.z (fixEps - part.pos.z)
            (shape.z - fixEps - part.pos.z) (by linarith)
          have hhx := clipQ_le_hi pos.x (fixEps - part.pos.x)
            (shape.x - fixEps - part.pos.x)
          have hhy := clipQ_le_hi pos.y (fixEps - part.pos.y)
            (shape.y - fixEps - part.pos.y)
          have hhz := clipQ_le_hi pos.z (fixEps - part.pos.z)
            (shape.z - fixEps - part.pos.z)
          have hr : fixEps - part.rad ≤ max rad (fixEps - part.rad) :=
            le_max_right _ _
          simp only [QVec3.add_x, QVec3.add_y, QVec3.add_z, clipV_x, clipV_y,
            clipV_z, QVec3.sub_x, QVec3.sub_y, QVec3.sub_z, constV_x, constV_y,
            constV_z]
          refine ⟨⟨by linarith, by linarith, by linarith⟩,
            ⟨by linarith, by linarith, by linarith⟩, by linarith⟩
        refine ⟨⟨part.pos + clipV pos (constV fixEps - part.pos)
            (shape - constV fixEps - part.pos),
          part.rad + max rad (fixEps - part.rad), typ.getD part.typ⟩, ?_⟩
        unfold update_one_particle
        simp [hbad, hgood]
    | false =>
      show (∃ p', update_one_particle shape part pos rad typ false true = Except.ok p')
      cases hbad : is_bad_update shape pos rad with
      | false =>
        refine ⟨⟨pos, rad, typ.getD part.typ⟩, ?_⟩
        unfold update_one_particle
        simp [hbad]
      | true =>
        have hgood : is_bad_update shape
            (clipV pos (constV fixEps) (shape - constV fixEps))
            (max rad fixEps) = false := by
          rw [is_bad_update_false_iff]
          have hcx := lo_le_clipQ pos.x fixEps (shape.x - fixEps) (by linarith)
          have hcy := lo_le_clipQ pos.y fixEps (shape.y - fixEps) (by linarith)
          have hcz := lo_le_clipQ pos.z fixEps (shape.z - fixEps) (by linarith)
          have hhx := clipQ_le_hi pos.x fixEps (shape.x - fixEps)
          have hhy := clipQ_le_hi pos.y fixEps (shape.y - fixEps)
          have hhz := clipQ_le_hi pos.z fixEps (shape.z - fixEps)
          have hr : fixEps ≤ max rad fixEps := le_max_right _ _
          simp only [clipV_x, clipV_y, clipV_z, QVec3.sub_x, QVec3.sub_y,
            QVec3.sub_z, constV_x, constV_y, constV_z]
          refine ⟨⟨by linarith, by linarith, by linarith⟩,
            ⟨by linarith, by linarith, by linarith⟩, by linarith⟩
        refine ⟨⟨clipV pos (constV fixEps) (shape - constV fixEps),
          max rad fixEps, typ.getD part.typ⟩, ?_⟩
        unfold update_one_particle
        simp [hbad, hgood]

/-- C6 witness: the theorem applied at a concrete bad absolute update
(position (-1,5,5), as in the spec's end-to-end scenario 4). -/
theorem update_one_particle_error_iff_witness :
    (2 * fixEps ≤ (10 : ℚ) ∧ 2 * fixEps ≤ (10 : ℚ) ∧ 2 * fixEps ≤ (10 : ℚ)) ∧
    (((∃ e, update_one_particle ⟨10, 10, 10⟩ ⟨⟨5, 5, 5⟩, 1, 1⟩ ⟨-1, 5, 5⟩ 1 none
        false false = Except.error e) ↔
      ((((-1 : ℚ) < 0 ∨ (5 : ℚ) < 0 ∨ (5 : ℚ) < 0) ∨
        ((10 : ℚ) < -1 ∨ (10 : ℚ) < 5 ∨ (10 : ℚ) < 5) ∨ (1 : ℚ) < 0))) ∧
    (∃ p', update_one_particle ⟨10, 10, 10⟩ ⟨⟨5, 5, 5⟩, 1, 1⟩ ⟨-1, 5, 5⟩ 1 none
        false true = Except.ok p')) := by
  refine ⟨⟨by norm_num [fixEps], by norm_num [fixEps], by norm_num [fixEps]⟩, ?_⟩
  have h := update_one_particle_error_iff ⟨10, 10, 10⟩ ⟨⟨5, 5, 5⟩, 1, 1⟩
    ⟨-1, 5, 5⟩ 1 none false (by norm_num [fixEps]) (by norm_num [fixEps])
    (by norm_num [fixEps])
  simpa using h
/-- C5 counterexample: for max_mem = 84, nparams = 1, min_redundant = 41/4,
the code raises (the int() truncation makes px_mem = 10 and 41/4 > 10), yet
min_redundant * P = 10.25 does not exceed max_mem/(8*P) = 10.5, so the claimed
raise-iff condition is violated. -/
theorem get_num_px_jtj_truncation_raise :
    (∃ e, get_num_px_jtj 1000 1 400 84 (41 / 4) = Except.error e) ∧
      ¬ ((41 / 4 : ℚ) * 1 > 84 / (8 * 1)) := by
  constructor
  · refine ⟨"Insufficient max_mem for desired redundancy", ?_⟩
    have hpy : pyInt ((84 : ℚ) / 8 / ((1 : ℕ) : ℚ)) = 10 := by
      rw [pyInt, if_pos (by norm_num)]
      norm_num [Int.floor_eq_iff]
    unfold get_num_px_jtj
    rw [hpy]
    rw [if_pos (by norm_num)]
  · norm_num

/-- C5 (amended): get_num_px_jtj raises exactly when
min_redundant * P > floor(max_mem/(8*P)) (the int() truncation applies to the
memory bound), and otherwise returns
clip(S/decimate, min_redundant*P, floor(max_mem/(8*P))).  It is a pure
function of its inputs, so no model state is mutated when it raises. -/
theorem get_num_px_jtj_spec (S np : ℕ) (decimate max_mem min_redundant : ℚ)
    (hnp : 0 < np) (hmm : 0 ≤ max_mem) :
    ((∃ e, get_num_px_jtj S np decimate max_mem min_redundant =
        Except.error e) ↔
      min_redundant * np > ((⌊max_mem / (8 * np)⌋ : ℤ) : ℚ)) ∧
    (min_redundant * np ≤ ((⌊max_mem / (8 * np)⌋ : ℤ) : ℚ) →
      get_num_px_jtj S np decimate max_mem min_redundant =
        Except.ok (min (max ((S : ℚ) / decimate) (min_redundant * np))
          ((⌊max_mem / (8 * np)⌋ : ℤ) : ℚ))) := by
  have hq : (0 : ℚ) < (np : ℚ) := by exact_mod_cast hnp
  have hdd : max_mem / 8 / (np : ℚ) = max_mem / (8 * np) := by
    rw [div_div]
  have hnn : 0 ≤ max_mem / 8 / (np : ℚ) := by
    apply div_nonneg (div_nonneg hmm (by norm_num)) (le_of_lt hq)
  have hpy : pyInt (max_mem / 8 / (np : ℚ)) = ⌊max_mem / (8 * np)⌋ := by
    rw [pyInt, if_pos hnn, hdd]
  constructor
  · constructor
    · rintro ⟨e, he⟩
      by_contra hle
      push_neg at hle
      unfold get_num_px_jtj at he
      rw [hpy] at he
      rw [if_neg (by push_neg; exact hle)] at he
      cases he
    · intro hgt
      unfold get_num_px_jtj
      rw [hpy, if_pos hgt]
      exact ⟨_, rfl⟩
  · intro hle
    unfold get_num_px_jtj
    rw [hpy, if_neg (by push_neg; exact hle)]

/-- C5 witness: the theorem applied at the spec's end-to-end scenario 3,
maxMem = 1e3, minRedundant = 1e6, nparams = 10 (a raising configuration). -/
theorem get_num_px_jtj_spec_witness :
    ((0 : ℕ) < 10 ∧ (0 : ℚ) ≤ 1000) ∧
    (((∃ e, get_num_px_jtj 100000 10 400 1000 1000000 = Except.error e) ↔
       (1000000 : ℚ) * 10 > ((⌊(1000 : ℚ) / (8 * 10)⌋ : ℤ) : ℚ)) ∧
     ((1000000 : ℚ) * 10 ≤ ((⌊(1000 : ℚ) / (8 * 10)⌋ : ℤ) : ℚ) →
       get_num_px_jtj 100000 10 400 1000 1000000 =
         Except.ok (min (max ((100000 : ℚ) / 400) (1000000 * 10))
           ((⌊(1000 : ℚ) / (8 * 10)⌋ : ℤ) : ℚ)))) := by
  refine ⟨⟨by norm_num, by norm_num⟩, ?_⟩
  have h := get_num_px_jtj_spec 100000 10 400 1000 1000000 (by norm_num) (by norm_num)
  exact_mod_cast h

theorem foldl_min_le_init {α : Type} [LinearOrder α] (l : List α) (a : α) :
    l.foldl min a ≤ a := by
  induction l generalizing a with
  | nil => exact le_refl a
  | cons b t ih =>
    calc t.foldl min (min a b) ≤ min a b := ih (min a b)
    _ ≤ a := min_le_left _ _

theorem foldl_min_le_mem {α : Type} [LinearOrder α] (l : List α) (a b : α)
    (hb : b ∈ l) : l.foldl min a ≤ b := by
  induction l generalizing a with
  | nil => cases hb
  | cons c t ih =>
    rcases List.mem_cons.mp hb with h | h
    · subst h
      calc t.foldl min (min a b) ≤ min a b := foldl_min_le_init t (min a b)
      _ ≤ b := min_le_right _ _
    · exact ih (min a c) h

theorem foldl_min_mem {α : Type} [LinearOrder α] (l : List α) (a : α) :
    l.foldl min a = a ∨ l.foldl min a ∈ l := by
  induction l generalizing a with
  | nil => left; rfl
  | cons c t ih =>
    rcases ih (min a c) with h | h
    · rcases min_choice a c with h2 | h2
      · left; rw [List.foldl_cons, h, h2]
      · right; rw [List.foldl_cons, h, h2]; exact List.mem_cons_self _ _
    · right; exact List.mem_cons_of_mem _ h

theorem init_le_foldl_max {α : Type} [LinearOrder α] (l : List α) (a : α) :
    a ≤ l.foldl max a := by
  induction l generalizing a with
  | nil => exact le_refl a
  | cons b t ih =>
    calc a ≤ max a b := le_max_left _ _
    _ ≤ t.foldl max (max a b) := ih (max a b)

theorem mem_le_foldl_max {α : Type} [LinearOrder α] (l : List α) (a b : α)
    (hb : b ∈ l) : b ≤ l.foldl max a := by
  induction l generalizing a with
  | nil => cases hb
  | cons c t ih =>
    rcases List.mem_cons.mp hb with h | h
    · subst h
      calc b ≤ max a b := le_max_right _ _
      _ ≤ t.foldl max (max a b) := init_le_foldl_max t (max a b)
    · exact ih (max a c) h

theorem foldl_max_mem {α : Type} [LinearOrder α] (l : List α) (a : α) :
    l.foldl max a = a ∨ l.foldl max a ∈ l := by
  induction l generalizing a with
  | nil => left; rfl
  | cons c t ih =>
    rcases ih (max a c) with h | h
    · rcases max_choice a c with h2 | h2
      · left; rw [List.foldl_cons, h, h2]
      · right; rw [List.foldl_cons, h, h2]; exact List.mem_cons_self _ _
    · right; exact List.mem_cons_of_mem _ h

theorem min_fold_spec {α : Type} [LinearOrder α] (g : ℕ → α) (i0 : ℕ)
    (it : List ℕ) :
    (∀ j ∈ i0 :: it, (it.map g).foldl min (g i0) ≤ g j) ∧
    (∃ j ∈ i0 :: it, (it.map g).foldl min (g i0) = g j) := by
  constructor
  · intro j hj
    rcases List.mem_cons.mp hj with h | h
    · subst h; exact foldl_min_le_init _ _
    · exact foldl_min_le_mem _ _ _ (List.mem_map_of_mem g h)
  · rcases foldl_min_mem (it.map g) (g i0) with h | h
    · exact ⟨i0, List.mem_cons_self _ _, h⟩
    · rcases List.mem_map.mp h with ⟨j, hj, hje⟩
      exact ⟨j, List.mem_cons_of_mem _ hj, hje.symm⟩

theorem max_fold_spec {α : Type} [LinearOrder α] (g : ℕ → α) (i0 : ℕ)
    (it : List ℕ) :
    (∀ j ∈ i0 :: it, g j ≤ (it.map g).foldl max (g i0)) ∧
    (∃ j ∈ i0 :: it, (it.map g).foldl max (g i0) = g j) := by
  constructor
  · intro j hj
    rcases List.mem_cons.mp hj with h | h
    · subst h; exact init_le_foldl_max _ _
    · exact mem_le_foldl_max _ _ _ (List.mem_map_of_mem g h)
  · rcases foldl_max_mem (it.map g) (g i0) with h | h
    · exact ⟨i0, List.mem_cons_self _ _, h⟩
    · rcases List.mem_map.mp h with ⟨j, hj, hje⟩
      exact ⟨j, List.mem_cons_of_mem _ hj, hje.symm⟩

theorem foldl_vmin_x (t : List IVec3) (a : IVec3) :
    (t.foldl vmin a).x = (t.map (fun v => v.x)).foldl min a.x := by
  induction t generalizing a with
  | nil => rfl
  | cons c t ih => simp only [List.foldl_cons, List.map_cons, ih]; rfl

theorem foldl_vmin_y (t : List IVec3) (a : IVec3) :
    (t.foldl vmin a).y = (t.map (fun v => v.y)).foldl min a.y := by
  induction t generalizing a with
  | nil => rfl
  | cons c t ih => simp only [List.foldl_cons, List.map_cons, ih]; rfl

theorem foldl_vmin_z (t : List IVec3) (a : IVec3) :
    (t.foldl vmin a).z = (t.map (fun v => v.z)).foldl min a.z := by
  induction t generalizing a with
  | nil => rfl
  | cons c t ih => simp only [List.foldl_cons, List.map_cons, ih]; rfl

theorem foldl_vmax_x (t : List IVec3) (a : IVec3) :
    (t.foldl vmax a).x = (t.map (fun v => v.x)).foldl max a.x := by
  induction t generalizing a with
  | nil => rfl
  | cons c t ih => simp only [List.foldl_cons, List.map_cons, ih]; rfl

theorem foldl_vmax_y (t : List IVec3) (a : IVec3) :
    (t.foldl vmax a).y = (t.map (fun v => v.y)).foldl max a.y := by
  induction t generalizing a with
  | nil => rfl
  | cons c t ih => simp only [List.foldl_cons, List.map_cons, ih]; rfl

theorem foldl_vmax_z (t : List IVec3) (a : IVec3) :
    (t.foldl vmax a).z = (t.map (fun v => v.z)).foldl max a.z := by
  induction t generalizing a with
  | nil => rfl
  | cons c t ih => simp only [List.foldl_cons, List.map_cons, ih]; rfl

/-- C9: for a non-empty index list, the tile returned by
get_tile_from_multiple_particle_change has, on every coordinate, a left
corner equal to the componentwise minimum of the individual tiles' left
corners (a lower bound that is attained) and a right corner equal to the
componentwise maximum of the right corners (an upper bound that is
attained). -/
theorem tile_union_min_max (tileOf : ℕ → Tile) (inds : List ℕ)
    (hne : inds ≠ []) :
    (∀ j ∈ inds,
      (get_tile_from_multiple_particle_change tileOf inds).l.x ≤ (tileOf j).l.x ∧
      (get_tile_from_multiple_particle_change tileOf inds).l.y ≤ (tileOf j).l.y ∧
      (get_tile_from_multiple_particle_change tileOf inds).l.z ≤ (tileOf j).l.z ∧
      (tileOf j).r.x ≤ (get_tile_from_multiple_particle_change tileOf inds).r.x ∧
      (tileOf j).r.y ≤ (get_tile_from_multiple_particle_change tileOf inds).r.y ∧
      (tileOf j).r.z ≤ (get_tile_from_multiple_particle_change tileOf inds).r.z) ∧
    ((∃ j ∈ inds, (get_tile_from_multiple_particle_change tileOf inds).l.x =
        (tileOf j).l.x) ∧
     (∃ j ∈ inds, (get_tile_from_multiple_particle_change tileOf inds).l.y =
        (tileOf j).l.y) ∧
     (∃ j ∈ inds, (get_tile_from_multiple_particle_change tileOf inds).l.z =
        (tileOf j).l.z) ∧
     (∃ j ∈ inds, (get_tile_from_multiple_particle_change tileOf inds).r.x =
        (tileOf j).r.x) ∧
     (∃ j ∈ inds, (get_tile_from_multiple_particle_change tileOf inds).r.y =
        (tileOf j).r.y) ∧
     (∃ j ∈ inds, (get_tile_from_multiple_particle_change tileOf inds).r.z =
        (tileOf j).r.z)) := by
  cases inds with
  | nil => exact absurd rfl hne
  | cons i0 it =>
    have hl : (get_tile_from_multiple_particle_change tileOf (i0 :: it)).l =
        (it.map (fun i => (tileOf i).l)).foldl vmin (tileOf i0).l := rfl
    have hr : (get_tile_from_multiple_particle_change tileOf (i0 :: it)).r =
        (it.map (fun i => (tileOf i).r)).foldl vmax (tileOf i0).r := rfl
    have hlx : (get_tile_from_multiple_particle_change tileOf (i0 :: it)).l.x =
        (it.map (fun i => (tileOf i).l.x)).foldl min (tileOf i0).l.x := by
      rw [hl, foldl_vmin_x, List.map_map]; rfl
    have hly : (get_tile_from_multiple_particle_change tileOf (i0 :: it)).l.y =
        (it.map (fun i => (tileOf i).l.y)).foldl min (tileOf i0).l.y := by
      rw [hl, foldl_vmin_y, List.map_map]; rfl
    have hlz : (get_tile_from_multiple_particle_change tileOf (i0 :: it)).l.z =
        (it.map (fun i => (tileOf i).l.z)).foldl min (tileOf i0).l.z := by
      rw [hl, foldl_vmin_z, List.map_map]; rfl
    have hrx : (get_tile_from_multiple_particle_change tileOf (i0 :: it)).r.x =
        (it.map (fun i => (tileOf i).r.x)).foldl max (tileOf i0).r.x := by
      rw [hr, foldl_vmax_x, List.map_map]; rfl
    have hry : (get_tile_from_multiple_particle_change tileOf (i0 :: it)).r.y =
        (it.map (fun i => (tileOf i).r.y)).foldl max (tileOf i0).r.y := by
      rw [hr, foldl_vmax_y, List.map_map]; rfl
    have hrz : (get_tile_from_multiple_particle_change tileOf (i0 :: it)).r.z =
        (it.map (fun i => (tileOf i).r.z)).foldl max (tileOf i0).r.z := by
      rw [hr, foldl_vmax_z, List.map_map]; rfl
    constructor
    · intro j hj
      refine ⟨?_, ?_, ?_, ?_, ?_, ?_⟩
      · rw [hlx]; exact (min_fold_spec (fun i => (tileOf i).l.x) i0 it).1 j hj
      · rw [hly]; exact (min_fold_spec (fun i => (tileOf i).l.y) i0 it).1 j hj
      · rw [hlz]; exact (min_fold_spec (fun i => (tileOf i).l.z) i0 it).1 j hj
      · rw [hrx]; exact (max_fold_spec (fun i => (tileOf i).r.x) i0 it).1 j hj
      · rw [hry]; exact (max_fold_spec (fun i => (tileOf i).r.y) i0 it).1 j hj
      · rw [hrz]; exact (max_fold_spec (fun i => (tileOf i).r.z) i0 it).1 j hj
    · refine ⟨?_, ?_, ?_, ?_, ?_, ?_⟩
      · rw [hlx]; exact (min_fold_spec (fun i => (tileOf i).l.x) i0 it).2
      · rw [hly]; exact (min_fold_spec (fun i => (tileOf i).l.y) i0 it).2
      · rw [hlz]; exact (min_fold_spec (fun i => (tileOf i).l.z) i0 it).2
      · rw [hrx]; exact (max_fold_spec (fun i => (tileOf i).r.x) i0 it).2
      · rw [hry]; exact (max_fold_spec (fun i => (tileOf i).r.y) i0 it).2
      · rw [hrz]; exact (max_fold_spec (fun i => (tileOf i).r.z) i0 it).2

/-- C9 witness: the theorem applied to two concrete tiles whose bounding
union is the componentwise min/max. -/
theorem tile_union_min_max_witness :
    (([0, 1] : List ℕ) ≠ []) ∧
    ((∀ j ∈ ([0, 1] : List ℕ),
      (get_tile_from_multiple_particle_change
        (fun i => if i = 0 then ⟨⟨0, 5, 2⟩, ⟨4, 9, 6⟩⟩ else ⟨⟨3, 1, 4⟩, ⟨7, 5, 8⟩⟩)
        [0, 1]).l.x ≤
        ((fun i => if i = 0 then (⟨⟨0, 5, 2⟩, ⟨4, 9, 6⟩⟩ : Tile)
          else ⟨⟨3, 1, 4⟩, ⟨7, 5, 8⟩⟩) j).l.x ∧
      (get_tile_from_multiple_particle_change
        (fun i => if i = 0 then ⟨⟨0, 5, 2⟩, ⟨4, 9, 6⟩⟩ else ⟨⟨3, 1, 4⟩, ⟨7, 5, 8⟩⟩)
        [0, 1]).l.y ≤
        ((fun i => if i = 0 then (⟨⟨0, 5, 2⟩, ⟨4, 9, 6⟩⟩ : Tile)
          else ⟨⟨3, 1, 4⟩, ⟨7, 5, 8⟩⟩) j).l.y ∧
      (get_tile_from_multiple_particle_change
        (fun i => if i = 0 then ⟨⟨0, 5, 2⟩, ⟨4, 9, 6⟩⟩ else ⟨⟨3, 1, 4⟩, ⟨7, 5, 8⟩⟩)
        [0, 1]).l.z ≤
        ((fun i => if i = 0 then (⟨⟨0, 5, 2⟩, ⟨4, 9, 6⟩⟩ : Tile)
          else ⟨⟨3, 1, 4⟩, ⟨7, 5, 8⟩⟩) j).l.z ∧
      ((fun i => if i = 0 then (⟨⟨0, 5, 2⟩, ⟨4, 9, 6⟩⟩ : Tile)
          else ⟨⟨3, 1, 4⟩, ⟨7, 5, 8⟩⟩) j).r.x ≤
        (get_tile_from_multiple_particle_change
          (fun i => if i = 0 then ⟨⟨0, 5, 2⟩, ⟨4, 9, 6⟩⟩ else ⟨⟨3, 1, 4⟩, ⟨7, 5, 8⟩⟩)
          [0, 1]).r.x ∧
      ((fun i => if i = 0 then (⟨⟨0, 5, 2⟩, ⟨4, 9, 6⟩⟩ : Tile)
          else ⟨⟨3, 1, 4⟩, ⟨7, 5, 8⟩⟩) j).r.y ≤
        (get_tile_from_multiple_particle_change
          (fun i => if i = 0 then ⟨⟨0, 5, 2⟩, ⟨4, 9, 6⟩⟩ else ⟨⟨3, 1, 4⟩, ⟨7, 5, 8⟩⟩)
          [0, 1]).r.y ∧
      ((fun i => if i = 0 then (⟨⟨0, 5, 2⟩, ⟨4, 9, 6⟩⟩ : Tile)
          else ⟨⟨3, 1, 4⟩, ⟨7, 5, 8⟩⟩) j).r.z ≤
        (get_tile_from_multiple_particle_change
          (fun i => if i = 0 then ⟨⟨0, 5, 2⟩, ⟨4, 9, 6⟩⟩ else ⟨⟨3, 1, 4⟩, ⟨7, 5, 8⟩⟩)
          [0, 1]).r.z) ∧
     ((∃ j ∈ ([0, 1] : List ℕ),
        (get_tile_from_multiple_particle_change
          (fun i => if i = 0 then ⟨⟨0, 5, 2⟩, ⟨4, 9, 6⟩⟩ else ⟨⟨3, 1, 4⟩, ⟨7, 5, 8⟩⟩)
          [0, 1]).l.x =
          ((fun i => if i = 0 then (⟨⟨0, 5, 2⟩, ⟨4, 9, 6⟩⟩ : Tile)
            else ⟨⟨3, 1, 4⟩, ⟨7, 5, 8⟩⟩) j).l.x) ∧
      (∃ j ∈ ([0, 1] : List ℕ),
        (get_tile_from_multiple_particle_change
          (fun i => if i = 0 then ⟨⟨0, 5, 2⟩, ⟨4, 9, 6⟩⟩ else ⟨⟨3, 1, 4⟩, ⟨7, 5, 8⟩⟩)
          [0, 1]).l.y =
          ((fun i => if i = 0 then (⟨⟨0, 5, 2⟩, ⟨4, 9, 6⟩⟩ : Tile)
            else ⟨⟨3, 1, 4⟩, ⟨7, 5, 8⟩⟩) j).l.y) ∧
      (∃ j ∈ ([0, 1] : List ℕ),
        (get_tile_from_multiple_particle_change
          (fun i => if i = 0 then ⟨⟨0, 5, 2⟩, ⟨4, 9, 6⟩⟩ else ⟨⟨3, 1, 4⟩, ⟨7, 5, 8⟩⟩)
          [0, 1]).l.z =
          ((fun i => if i = 0 then (⟨⟨0, 5, 2⟩, ⟨4, 9, 6⟩⟩ : Tile)
            else ⟨⟨3, 1, 4⟩, ⟨7, 5, 8⟩⟩) j).l.z) ∧
      (∃ j ∈ ([0, 1] : List ℕ),
        (get_tile_from_multiple_particle_change
          (fun i => if i = 0 then ⟨⟨0, 5, 2⟩, ⟨4, 9, 6⟩⟩ else ⟨⟨3, 1, 4⟩, ⟨7, 5, 8⟩⟩)
          [0, 1]).r.x =
          ((fun i => if i = 0 then (⟨⟨0, 5, 2⟩, ⟨4, 9, 6⟩⟩ : Tile)
            else ⟨⟨3, 1, 4⟩, ⟨7, 5, 8⟩⟩) j).r.x) ∧
      (∃ j ∈ ([0, 1] : List ℕ),
        (get_tile_from_multiple_particle_change
          (fun i => if i = 0 then ⟨⟨0, 5, 2⟩, ⟨4, 9, 6⟩⟩ else ⟨⟨3, 1, 4⟩, ⟨7, 5, 8⟩⟩)
          [0, 1]).r.y =
          ((fun i => if i = 0 then (⟨⟨0, 5, 2⟩, ⟨4, 9, 6⟩⟩ : Tile)
            else ⟨⟨3, 1, 4⟩, ⟨7, 5, 8⟩⟩) j).r.y) ∧
      (∃ j ∈ ([0, 1] : List ℕ),
        (get_tile_from_multiple_particle_change
          (fun i => if i = 0 then ⟨⟨0, 5, 2⟩, ⟨4, 9, 6⟩⟩ else ⟨⟨3, 1, 4⟩, ⟨7, 5, 8⟩⟩)
          [0, 1]).r.z =
          ((fun i => if i = 0 then (⟨⟨0, 5, 2⟩, ⟨4, 9, 6⟩⟩ : Tile)
            else ⟨⟨3, 1, 4⟩, ⟨7, 5, 8⟩⟩) j).r.z))) := by
  refine ⟨by simp, ?_⟩
  exact tile_union_min_max
    (fun i => if i = 0 then ⟨⟨0, 5, 2⟩, ⟨4, 9, 6⟩⟩ else ⟨⟨3, 1, 4⟩, ⟨7, 5, 8⟩⟩)
    [0, 1] (by simp)

theorem in_box_iff (p lo hi : QVec3) :
    in_box p lo hi = true ↔
      ((lo.x < p.x ∧ p.x ≤ hi.x) ∧ (lo.y < p.y ∧ p.y ≤ hi.y) ∧
       (lo.z < p.z ∧ p.z ≤ hi.z)) := by
  simp [in_box, and_assoc]

theorem pyRange_le_of_mem (b e s t : ℤ) (hs : 0 < s) (ht : t ∈ pyRange b e s) :
    b ≤ t := by
  rw [pyRange, List.mem_map] at ht
  obtain ⟨k, hk, hkt⟩ := ht
  have hks : (0 : ℤ) ≤ (k : ℤ) * s :=
    mul_nonneg (by exact_mod_cast Nat.zero_le k) hs.le
  rw [← hkt]
  linarith

theorem mem_separate_groups_decomp (ps : List QVec3) (rs b0 b1 : IVec3)
    (g : List ℕ) (hg : g ∈ separate_particles_into_groups ps rs b0 b1) :
    ∃ s0 ∈ pyRange b0.x b1.x rs.x, ∃ s1 ∈ pyRange b0.y b1.y rs.y,
      ∃ s2 ∈ pyRange b0.z b1.z rs.z,
        g = find_particles_in_box ps (toQVec ⟨s0, s1, s2⟩)
          (toQVec ((⟨s0, s1, s2⟩ : IVec3) + rs)) ∧ 0 < g.length := by
  unfold separate_particles_into_groups at hg
  rw [List.mem_filter] at hg
  obtain ⟨hmem, hlen⟩ := hg
  rw [List.mem_map] at hmem
  obtain ⟨bx, hbx, hgeq⟩ := hmem
  rw [List.mem_bind] at hbx
  obtain ⟨s0, hs0, hbx2⟩ := hbx
  rw [List.mem_bind] at hbx2
  obtain ⟨s1, hs1, hbx3⟩ := hbx2
  rw [List.mem_map] at hbx3
  obtain ⟨s2, hs2, hbeq⟩ := hbx3
  refine ⟨s0, hs0, s1, hs1, s2, hs2, ?_, by simpa using hlen⟩
  rw [← hgeq, ← hbeq]

/-- C10: find_particles_in_box returns exactly the indices whose position is
strictly above the lower corner and at most the upper corner on every axis;
consequently a particle with some coordinate at or below the lower corner of
the search region of separate_particles_into_groups (for example a
coordinate equal to 0 under the default bounds) belongs to no group. -/
theorem find_particles_in_box_membership (ps : List QVec3) (j : ℕ) :
    (∀ lo hi : QVec3, j ∈ find_particles_in_box ps lo hi ↔
      (j < ps.length ∧
        ((lo.x < (ps.getD j ⟨0, 0, 0⟩).x ∧ (ps.getD j ⟨0, 0, 0⟩).x ≤ hi.x) ∧
         (lo.y < (ps.getD j ⟨0, 0, 0⟩).y ∧ (ps.getD j ⟨0, 0, 0⟩).y ≤ hi.y) ∧
         (lo.z < (ps.getD j ⟨0, 0, 0⟩).z ∧ (ps.getD j ⟨0, 0, 0⟩).z ≤ hi.z)))) ∧
    (∀ rs b0 b1 : IVec3, 0 < rs.x → 0 < rs.y → 0 < rs.z →
      ((ps.getD j ⟨0, 0, 0⟩).x ≤ (b0.x : ℚ) ∨
       (ps.getD j ⟨0, 0, 0⟩).y ≤ (b0.y : ℚ) ∨
       (ps.getD j ⟨0, 0, 0⟩).z ≤ (b0.z : ℚ)) →
      ∀ g ∈ separate_particles_into_groups ps rs b0 b1, j ∉ g) := by
  have hmem : ∀ lo hi : QVec3, j ∈ find_particles_in_box ps lo hi ↔
      (j < ps.length ∧
        ((lo.x < (ps.getD j ⟨0, 0, 0⟩).x ∧ (ps.getD j ⟨0, 0, 0⟩).x ≤ hi.x) ∧
         (lo.y < (ps.getD j ⟨0, 0, 0⟩).y ∧ (ps.getD j ⟨0, 0, 0⟩).y ≤ hi.y) ∧
         (lo.z < (ps.getD j ⟨0, 0, 0⟩).z ∧ (ps.getD j ⟨0, 0, 0⟩).z ≤ hi.z))) := by
    intro lo hi
    unfold find_particles_in_box
    rw [List.mem_filter, List.mem_range, in_box_iff]
  refine ⟨hmem, ?_⟩
  intro rs b0 b1 hrsx hrsy hrsz hbelow g hg hjg
  obtain ⟨s0, hs0, s1, hs1, s2, hs2, hgeq, _⟩ :=
    mem_separate_groups_decomp ps rs b0 b1 g hg
  rw [hgeq] at hjg
  rw [hmem] at hjg
  obtain ⟨_, ⟨hx, _⟩, ⟨hy, _⟩, ⟨hz, _⟩⟩ := hjg
  have hbx : (b0.x : ℚ) ≤ ((s0 : ℚ)) := by
    exact_mod_cast pyRange_le_of_mem b0.x b1.x rs.x s0 hrsx hs0
  have hby : (b0.y : ℚ) ≤ ((s1 : ℚ)) := by
    exact_mod_cast pyRange_le_of_mem b0.y b1.y rs.y s1 hrsy hs1
  have hbz : (b0.z : ℚ) ≤ ((s2 : ℚ)) := by
    exact_mod_cast pyRange_le_of_mem b0.z b1.z rs.z s2 hrsz hs2
  have hl0x : (toQVec ⟨s0, s1, s2⟩).x = (s0 : ℚ) := rfl
  have hl0y : (toQVec ⟨s0, s1, s2⟩).y = (s1 : ℚ) := rfl
  have hl0z : (toQVec ⟨s0, s1, s2⟩).z = (s2 : ℚ) := rfl
  rw [hl0x] at hx
  rw [hl0y] at hy
  rw [hl0z] at hz
  rcases hbelow with h | h | h
  · linarith
  · linarith
  · linarith

/-- C10 witness: the theorem applied to a single particle with x coordinate
exactly 0 under the default bounds [0, shape]: the membership
characterization at a concrete box, and exclusion from every group. -/
theorem find_particles_in_box_membership_witness :
    ((0 : ℕ) ∈ find_particles_in_box [⟨0, 5, 5⟩] ⟨-1, -1, -1⟩ ⟨10, 10, 10⟩ ↔
      (0 < ([(⟨0, 5, 5⟩ : QVec3)] : List QVec3).length ∧
        (((-1 : ℚ) < 0 ∧ (0 : ℚ) ≤ 10) ∧ ((-1 : ℚ) < 5 ∧ (5 : ℚ) ≤ 10) ∧
         ((-1 : ℚ) < 5 ∧ (5 : ℚ) ≤ 10)))) ∧
    ((0 : ℚ) ≤ 0 ∧ (0 : ℤ) < 10) ∧
    (∀ g ∈ separate_particles_into_groups [⟨0, 5, 5⟩] ⟨10, 10, 10⟩ ⟨0, 0, 0⟩
        ⟨10, 10, 10⟩, (0 : ℕ) ∉ g) := by
  have h := find_particles_in_box_membership [⟨0, 5, 5⟩] 0
  refine ⟨?_, ⟨le_refl 0, by norm_num⟩, ?_⟩
  · have := h.1 ⟨-1, -1, -1⟩ ⟨10, 10, 10⟩
    simpa using this
  · exact h.2 ⟨10, 10, 10⟩ ⟨0, 0, 0⟩ ⟨10, 10, 10⟩ (by norm_num) (by norm_num)
      (by norm_num) (Or.inl (by norm_num))

theorem countP_bind_eq {α β : Type} (l : List α) (f : α → List β)
    (p : β → Bool) :
    (l.bind f).countP p = (l.map (fun a => (f a).countP p)).sum := by
  induction l with
  | nil => rfl
  | cons a t ih => simp [List.cons_bind, List.countP_append, ih]

theorem sum_map_ite_one {α : Type} (l : List α) (p : α → Bool) :
    (l.map (fun a => if p a then (1 : ℕ) else 0)).sum = l.countP p := by
  induction l with
  | nil => rfl
  | cons a t ih =>
    cases h : p a <;> simp [List.countP_cons, h, ih, Nat.add_comm]

theorem countP_range_eq_one (p : ℕ → Bool) (K n : ℕ) (hK : K < n)
    (h : ∀ k, p k = true ↔ k = K) : (List.range n).countP p = 1 := by
  induction n with
  | zero => omega
  | succ n ih =>
    rw [List.range_succ, List.countP_append]
    rcases Nat.lt_succ_iff_lt_or_eq.mp hK with h1 | h1
    · have hpn : p n = false := by
        rw [Bool.eq_false_iff]
        intro hpn
        have := (h n).mp hpn
        omega
      simp [List.countP_cons, hpn, ih h1]
    · subst h1
      have h0 : (List.range K).countP p = 0 := by
        rw [List.countP_eq_zero]
        intro a ha
        rw [List.mem_range] at ha
        simp only [h a]
        omega
      have h2 : p K = true := (h K).mpr rfl
      simp [List.countP_cons, h0, h2]

theorem axis_cell_count (b si : ℤ) (hs : 0 < si) (x : ℚ) (n : ℕ)
    (hlo : (b : ℚ) < x) (hhi : x ≤ (b : ℚ) + (n : ℚ) * (si : ℚ)) :
    ((List.range n).map (fun (k : ℕ) => b + (k : ℤ) * si)).countP
      (fun (t : ℤ) => decide ((t : ℚ) < x) &&
        decide (x ≤ (t : ℚ) + (si : ℚ))) = 1 := by
  rw [List.countP_map]
  have hsiq : (0 : ℚ) < (si : ℚ) := by exact_mod_cast hs
  have hypos : 0 < (x - (b : ℚ)) / (si : ℚ) := div_pos (by linarith) hsiq
  have hc1 : 1 ≤ ⌈(x - (b : ℚ)) / (si : ℚ)⌉ := Int.ceil_pos.mpr hypos
  have hcn : ⌈(x - (b : ℚ)) / (si : ℚ)⌉ ≤ (n : ℤ) := by
    rw [Int.ceil_le, div_le_iff hsiq]
    push_cast
    linarith
  apply countP_range_eq_one _ ((⌈(x - (b : ℚ)) / (si : ℚ)⌉ - 1).toNat)
  · omega
  · intro k
    constructor
    · intro hk
      simp only [Function.comp, Bool.and_eq_true, decide_eq_true_eq] at hk
      obtain ⟨hk1, hk2⟩ := hk
      have hklt : (k : ℚ) < (x - (b : ℚ)) / (si : ℚ) := by
        rw [lt_div_iff hsiq]
        push_cast at hk1 ⊢
        linarith
      have hkge : (x - (b : ℚ)) / (si : ℚ) ≤ (k : ℚ) + 1 := by
        rw [div_le_iff hsiq]
        push_cast at hk2 ⊢
        linarith
      have h1 : (k : ℤ) < ⌈(x - (b : ℚ)) / (si : ℚ)⌉ := by
        rw [Int.lt_ceil]
        exact_mod_cast hklt
      have h2 : ⌈(x - (b : ℚ)) / (si : ℚ)⌉ ≤ (k : ℤ) + 1 := by
        rw [Int.ceil_le]
        push_cast
        exact hkge
      omega
    · intro hk
      subst hk
      simp only [Function.comp, Bool.and_eq_true, decide_eq_true_eq]
      have hkc : (((⌈(x - (b : ℚ)) / (si : ℚ)⌉ - 1).toNat : ℤ)) =
          ⌈(x - (b : ℚ)) / (si : ℚ)⌉ - 1 := Int.toNat_of_nonneg (by omega)
      have hup : ((⌈(x - (b : ℚ)) / (si : ℚ)⌉ - 1 : ℤ) : ℚ) <
          (x - (b : ℚ)) / (si : ℚ) := by
        have hcl : ((⌈(x - (b : ℚ)) / (si : ℚ)⌉ : ℤ) : ℚ) <
            (x - (b : ℚ)) / (si : ℚ) + 1 := Int.ceil_lt_add_one _
        push_cast at hcl ⊢
        linarith
      have hdn : (x - (b : ℚ)) / (si : ℚ) ≤
          ((⌈(x - (b : ℚ)) / (si : ℚ)⌉ - 1 : ℤ) : ℚ) + 1 := by
        have hcl : (x - (b : ℚ)) / (si : ℚ) ≤
            ((⌈(x - (b : ℚ)) / (si : ℚ)⌉ : ℤ) : ℚ) := Int.le_ceil _
        push_cast at hcl ⊢
        linarith
      have hKq : (((⌈(x - (b : ℚ)) / (si : ℚ)⌉ - 1).toNat : ℕ) : ℚ) =
          ((⌈(x - (b : ℚ)) / (si : ℚ)⌉ : ℤ) : ℚ) - 1 := by
        exact_mod_cast hkc
      constructor
      · have hm := (lt_div_iff hsiq).mp hup
        push_cast [hKq]
        push_cast at hm
        ring_nf at hm ⊢
        linarith
      · have hm := (div_le_iff hsiq).mp hdn
        push_cast [hKq]
        push_cast at hm
        ring_nf at hm ⊢
        linarith

theorem countP_triple (l0 l1 l2 : List ℤ) (q0 q1 q2 : ℤ → Bool)
    (h0 : l0.countP q0 = 1) (h1 : l1.countP q1 = 1) (h2 : l2.countP q2 = 1) :
    (l0.bind (fun s0 => l1.bind (fun s1 => l2.map (fun s2 =>
      (⟨s0, s1, s2⟩ : IVec3))))).countP
      (fun bx => q0 bx.x && q1 bx.y && q2 bx.z) = 1 := by
  rw [countP_bind_eq]
  have inner1 : ∀ s0 : ℤ,
      ((l1.bind (fun s1 => l2.map (fun s2 => (⟨s0, s1, s2⟩ : IVec3)))).countP
        (fun bx => q0 bx.x && q1 bx.y && q2 bx.z))
      = if q0 s0 then 1 else 0 := by
    intro s0
    rw [countP_bind_eq]
    have inner2 : ∀ s1 : ℤ,
        ((l2.map (fun s2 => (⟨s0, s1, s2⟩ : IVec3))).countP
          (fun bx => q0 bx.x && q1 bx.y && q2 bx.z))
        = if q0 s0 && q1 s1 then 1 else 0 := by
      intro s1
      rw [List.countP_map]
      have hcomp : ((fun bx => q0 bx.x && q1 bx.y && q2 bx.z) ∘
          fun s2 => (⟨s0, s1, s2⟩ : IVec3)) =
          fun s2 => q0 s0 && (q1 s1 && q2 s2) := by
        funext s2
        simp only [Function.comp_apply]
        exact Bool.and_assoc _ _ _
      rw [hcomp]
      cases hq0 : q0 s0 with
      | false => simp
      | true =>
        cases hq1 : q1 s1 with
        | false => simp
        | true => simp [h2]
    have hmapeq : (l1.map (fun s1 =>
        ((l2.map (fun s2 => (⟨s0, s1, s2⟩ : IVec3))).countP
          (fun bx => q0 bx.x && q1 bx.y && q2 bx.z))))
        = l1.map (fun s1 => if q0 s0 && q1 s1 then 1 else 0) := by
      apply List.map_congr_left
      intro s1 _
      exact inner2 s1
    rw [hmapeq]
    cases hq0 : q0 s0 with
    | false => simp [hq0]
    | true =>
      simp only [hq0, Bool.true_and]
      rw [sum_map_ite_one, h1]
      simp
  have hmapeq : (l0.map (fun s0 =>
      ((l1.bind (fun s1 => l2.map (fun s2 => (⟨s0, s1, s2⟩ : IVec3)))).countP
        (fun bx => q0 bx.x && q1 bx.y && q2 bx.z))))
      = l0.map (fun s0 => if q0 s0 then 1 else 0) := by
    apply List.map_congr_left
    intro s0 _
    exact inner1 s0
  rw [hmapeq, sum_map_ite_one, h0]

theorem count_range_eq (j n : ℕ) :
    (List.range n).count j = if j < n then 1 else 0 := by
  induction n with
  | zero => simp
  | succ n ih =>
    rw [List.range_succ, List.count_append]
    by_cases h : j < n
    · have hne : j ≠ n := by omega
      have : j < n + 1 := by omega
      simp [ih, h, hne, this]
    · by_cases h2 : j = n
      · subst h2
        simp [ih, h]
      · have : ¬ j < n + 1 := by omega
        simp [ih, h, h2, this]

theorem count_filter_ite (p : ℕ → Bool) (l : List ℕ) (a : ℕ) :
    (l.filter p).count a = if p a then l.count a else 0 := by
  cases hpa : p a with
  | true =>
    rw [if_pos rfl]
    exact List.count_filter hpa
  | false =>
    rw [if_neg (by simp)]
    rw [List.count_eq_zero]
    intro hmem
    have := (List.mem_filter.mp hmem).2
    rw [hpa] at this
    cases this

theorem count_find_particles (ps : List QVec3) (lo hi : QVec3) (j : ℕ)
    (hj : j < ps.length) :
    (find_particles_in_box ps lo hi).count j =
      if in_box (ps.getD j ⟨0, 0, 0⟩) lo hi then 1 else 0 := by
  rw [find_particles_in_box, count_filter_ite, count_range_eq, if_pos hj]

theorem sum_count_over_filter (gs : List (List ℕ)) (j : ℕ) :
    (((gs.filter (fun g => decide (0 < g.length))).map
      (fun g => g.count j)).sum) = ((gs.map (fun g => g.count j)).sum) := by
  induction gs with
  | nil => rfl
  | cons g t ih =>
    by_cases h : 0 < g.length
    · rw [List.filter_cons_of_pos (by simpa using h)]
      simp [ih]
    · have hg : g = [] := by
        cases g with
        | nil => rfl
        | cons a t2 => simp at h
      rw [List.filter_cons_of_neg (by simpa using h)]
      rw [hg]
      simp [ih]

theorem ivec_add_x (a b : IVec3) : (a + b).x = a.x + b.x := rfl

theorem ivec_add_y (a b : IVec3) : (a + b).y = a.y + b.y := rfl

theorem ivec_add_z (a b : IVec3) : (a + b).z = a.z + b.z := rfl

theorem pyRange_length (b e s : ℤ) :
    (pyRange b e s).length = ((e - b + s - 1).ediv s).toNat := by
  simp [pyRange]

/-- C7 (amended): with positive region sizes, every particle whose position
is strictly above the lower bound and at most the last box's right edge on
every axis (the boxes cover (b0_i, b0_i + nboxes_i * rs_i]) is contained in
exactly one returned group, counted over all groups; and every returned
group is non-empty.  A particle with a coordinate exactly at the lower
bound (or beyond the last box) is not covered: see the counterexample. -/
theorem separate_particles_partition (ps : List QVec3) (rs b0 b1 : IVec3)
    (j : ℕ) (hj : j < ps.length)
    (hrsx : 0 < rs.x) (hrsy : 0 < rs.y) (hrsz : 0 < rs.z)
    (hlox : (b0.x : ℚ) < (ps.getD j ⟨0, 0, 0⟩).x)
    (hloy : (b0.y : ℚ) < (ps.getD j ⟨0, 0, 0⟩).y)
    (hloz : (b0.z : ℚ) < (ps.getD j ⟨0, 0, 0⟩).z)
    (hhix : (ps.getD j ⟨0, 0, 0⟩).x ≤
      (b0.x : ℚ) + ((pyRange b0.x b1.x rs.x).length : ℚ) * (rs.x : ℚ))
    (hhiy : (ps.getD j ⟨0, 0, 0⟩).y ≤
      (b0.y : ℚ) + ((pyRange b0.y b1.y rs.y).length : ℚ) * (rs.y : ℚ))
    (hhiz : (ps.getD j ⟨0, 0, 0⟩).z ≤
      (b0.z : ℚ) + ((pyRange b0.z b1.z rs.z).length : ℚ) * (rs.z : ℚ)) :
    (((separate_particles_into_groups ps rs b0 b1).map
      (fun g => g.count j)).sum = 1) ∧
    (∀ g ∈ separate_particles_into_groups ps rs b0 b1, g ≠ []) := by
  constructor
  · unfold separate_particles_into_groups
    rw [sum_count_over_filter, List.map_map]
    have hpt : ∀ bx : IVec3,
        ((fun g => g.count j) ∘ fun b =>
          find_particles_in_box ps (toQVec b) (toQVec (b + rs))) bx
        = if in_box (ps.getD j ⟨0, 0, 0⟩) (toQVec bx) (toQVec (bx + rs))
          then 1 else 0 := by
      intro bx
      simp only [Function.comp_apply]
      exact count_find_particles ps (toQVec bx) (toQVec (bx + rs)) j hj
    rw [List.map_congr_left (fun bx _ => hpt bx), sum_map_ite_one]
    have hpred : (fun bx : IVec3 =>
        in_box (ps.getD j ⟨0, 0, 0⟩) (toQVec bx) (toQVec (bx + rs))) =
        (fun bx : IVec3 =>
          ((fun (t : ℤ) => decide ((t : ℚ) < (ps.getD j ⟨0, 0, 0⟩).x) &&
            decide ((ps.getD j ⟨0, 0, 0⟩).x ≤ (t : ℚ) + (rs.x : ℚ))) bx.x &&
           (fun (t : ℤ) => decide ((t : ℚ) < (ps.getD j ⟨0, 0, 0⟩).y) &&
            decide ((ps.getD j ⟨0, 0, 0⟩).y ≤ (t : ℚ) + (rs.y : ℚ))) bx.y &&
           (fun (t : ℤ) => decide ((t : ℚ) < (ps.getD j ⟨0, 0, 0⟩).z) &&
            decide ((ps.getD j ⟨0, 0, 0⟩).z ≤ (t : ℚ) + (rs.z : ℚ))) bx.z)) := by
      funext bx
      simp only [in_box, toQVec, ivec_add_x, ivec_add_y, ivec_add_z,
        Int.cast_add]
    rw [hpred]
    refine countP_triple _ _ _
      (fun (t : ℤ) => decide ((t : ℚ) < (ps.getD j ⟨0, 0, 0⟩).x) &&
        decide ((ps.getD j ⟨0, 0, 0⟩).x ≤ (t : ℚ) + (rs.x : ℚ)))
      (fun (t : ℤ) => decide ((t : ℚ) < (ps.getD j ⟨0, 0, 0⟩).y) &&
        decide ((ps.getD j ⟨0, 0, 0⟩).y ≤ (t : ℚ) + (rs.y : ℚ)))
      (fun (t : ℤ) => decide ((t : ℚ) < (ps.getD j ⟨0, 0, 0⟩).z) &&
        decide ((ps.getD j ⟨0, 0, 0⟩).z ≤ (t : ℚ) + (rs.z : ℚ))) ?_ ?_ ?_
    · rw [pyRange]
      apply axis_cell_count b0.x rs.x hrsx (ps.getD j ⟨0, 0, 0⟩).x _ hlox
      rw [pyRange_length] at hhix
      exact hhix
    · rw [pyRange]
      apply axis_cell_count b0.y rs.y hrsy (ps.getD j ⟨0, 0, 0⟩).y _ hloy
      rw [pyRange_length] at hhiy
      exact hhiy
    · rw [pyRange]
      apply axis_cell_count b0.z rs.z hrsz (ps.getD j ⟨0, 0, 0⟩).z _ hloz
      rw [pyRange_length] at hhiz
      exact hhiz
  · intro g hg
    obtain ⟨_, _, _, _, _, _, _, hlen⟩ :=
      mem_separate_groups_decomp ps rs b0 b1 g hg
    exact List.ne_nil_of_length_pos hlen

/-- C7 counterexample: a single particle at the exact lower corner (0,0,0)
of the default region ([0,0,0], shape): it lies in the bounding region
(0 ≤ 0 ≤ 10 on every axis) but box membership is strict at the lower
corner, so no group contains it and no groups at all are returned,
contradicting the claim that every particle in the region is grouped
exactly once. -/
theorem separate_particles_lower_boundary_missed :
    separate_particles_into_groups [⟨0, 0, 0⟩] ⟨10, 10, 10⟩ ⟨0, 0, 0⟩
      ⟨10, 10, 10⟩ = [] ∧
    (((separate_particles_into_groups [⟨0, 0, 0⟩] ⟨10, 10, 10⟩ ⟨0, 0, 0⟩
      ⟨10, 10, 10⟩).map (fun g => g.count 0)).sum = 0) ∧
    ((0 : ℚ) ≤ 0 ∧ (0 : ℚ) ≤ 10) := by
  refine ⟨?_, ?_, by norm_num⟩
  · rfl
  · rfl

/-- C7 witness: the amended partition theorem applied to one particle at
(5,5,5) with region size 10 over bounds ([0,0,0],[10,10,10]). -/
theorem separate_particles_partition_witness :
    ((0 : ℕ) < ([(⟨5, 5, 5⟩ : QVec3)] : List QVec3).length ∧
     (0 : ℚ) < 5 ∧
     (5 : ℚ) ≤ (0 : ℚ) + ((pyRange 0 10 10).length : ℚ) * (10 : ℚ)) ∧
    ((((separate_particles_into_groups [⟨5, 5, 5⟩] ⟨10, 10, 10⟩ ⟨0, 0, 0⟩
      ⟨10, 10, 10⟩).map (fun g => g.count 0)).sum = 1) ∧
     (∀ g ∈ separate_particles_into_groups [⟨5, 5, 5⟩] ⟨10, 10, 10⟩ ⟨0, 0, 0⟩
      ⟨10, 10, 10⟩, g ≠ [])) := by
  have hlen : (pyRange 0 10 10).length = 1 := by decide
  have hhi5 : (5 : ℚ) ≤ (0 : ℚ) + ((pyRange 0 10 10).length : ℚ) * (10 : ℚ) := by
    rw [hlen]
    norm_num
  refine ⟨⟨by norm_num, by norm_num, hhi5⟩, ?_⟩
  exact separate_particles_partition [⟨5, 5, 5⟩] ⟨10, 10, 10⟩ ⟨0, 0, 0⟩
    ⟨10, 10, 10⟩ 0 (by norm_num) (by norm_num) (by norm_num) (by norm_num)
    (by norm_num) (by norm_num) (by norm_num) hhi5 hhi5 hhi5

theorem extendLoop_spec (f : ℚ → ℚ) (old : ℚ) :
    ∀ (fuel : ℕ) (start s : ℚ), extendLoop f old fuel start = some s →
      (old ≤ f s ∧ ∃ n : ℕ, s = 3 ^ (n + 1) * start ∧
        ∀ k : ℕ, 1 ≤ k → k ≤ n → f (3 ^ k * start) < old) := by
  intro fuel
  induction fuel with
  | zero => intro start s h; cases h
  | succ m ih =>
    intro start s h
    simp only [extendLoop] at h
    by_cases hlt : f (3 * start) < old
    · rw [if_pos hlt] at h
      obtain ⟨hle, n, hs, hall⟩ := ih (3 * start) s h
      refine ⟨hle, n + 1, ?_, ?_⟩
      · rw [hs]; ring
      · intro k hk1 hkn
        rcases Nat.lt_or_ge k 2 with h2 | h2
        · have hk : k = 1 := by omega
          subst hk
          calc f (3 ^ 1 * start) = f (3 * start) := by norm_num
          _ < old := hlt
        · have hk2 : 1 ≤ k - 1 := by omega
          have hk3 : k - 1 ≤ n := by omega
          have := hall (k - 1) hk2 hk3
          have hke : k - 1 + 1 = k := by omega
          have hk4 : 3 ^ k * start = 3 ^ (k - 1) * (3 * start) := by
            conv_lhs => rw [← hke]
            rw [pow_succ]
            ring
          rw [hk4]
          exact this
    · rw [if_neg hlt] at h
      injection h with h2
      subst h2
      refine ⟨not_lt.mp hlt, 0, by norm_num, by omega⟩

/-- C8 (amended): do_line_min uses the bracket [-2, 0, 2] exactly when the
step-0 error is at most both endpoint errors; otherwise it extends on the
side of the strictly smaller endpoint error, tripling the step while each
new error stays strictly below that endpoint's original error (not the
previous trial's); after the Brent stage it raises the hard RuntimeError
exactly when the minimizer's value is strictly worse than the error at
step 0, and otherwise (including exact equality, where the result is
merely no better) applies the minimizing step. -/
theorem do_line_min_spec (f : ℚ → ℚ) (brent : List ℚ → ℚ × ℚ) (fuel : ℕ)
    (bk : List ℚ) (hbk : bracketOf f fuel = some bk) :
    ((do_line_min f brent fuel = Except.error "wtf" ↔ f 0 < (brent bk).2) ∧
     ((brent bk).2 ≤ f 0 → do_line_min f brent fuel = Except.ok (brent bk).1)) ∧
    ((¬ f 0 > min (f (-2)) (f 2)) → bk = [-2, 0, 2]) ∧
    (f 0 > min (f (-2)) (f 2) → f (-2) < f 2 →
      ∃ s, bk = [s, -2, 0] ∧ f (-2) ≤ f s ∧
        ∃ n : ℕ, s = 3 ^ (n + 1) * (-2) ∧
          ∀ k : ℕ, 1 ≤ k → k ≤ n → f (3 ^ k * (-2)) < f (-2)) ∧
    (f 0 > min (f (-2)) (f 2) → ¬ f (-2) < f 2 →
      ∃ s, bk = [0, 2, s] ∧ f 2 ≤ f s ∧
        ∃ n : ℕ, s = 3 ^ (n + 1) * 2 ∧
          ∀ k : ℕ, 1 ≤ k → k ≤ n → f (3 ^ k * 2) < f 2) := by
  constructor
  · have hdo : do_line_min f brent fuel =
        (if (brent bk).2 ≤ f 0 then Except.ok (brent bk).1
         else Except.error "wtf") := by
      unfold do_line_min
      rw [hbk]
    constructor
    · rw [hdo]
      by_cases hc : (brent bk).2 ≤ f 0
      · rw [if_pos hc]
        constructor
        · intro he; cases he
        · intro hgt; exact absurd hc (not_le.mpr hgt)
      · rw [if_neg hc]
        exact ⟨fun _ => not_le.mp hc, fun _ => rfl⟩
    · intro hc
      rw [hdo, if_pos hc]
  · unfold bracketOf at hbk
    refine ⟨?_, ?_, ?_⟩
    · intro hval
      rw [if_neg hval] at hbk
      injection hbk with h
      exact h.symm
    · intro hval hside
      rw [if_pos hval, if_pos hside] at hbk
      rw [Option.map_eq_some'] at hbk
      obtain ⟨s, hs, hbkeq⟩ := hbk
      obtain ⟨hle, n, hsn, hall⟩ := extendLoop_spec f (f (-2)) fuel (-2) s hs
      exact ⟨s, hbkeq.symm, hle, n, hsn, hall⟩
    · intro hval hside
      rw [if_pos hval, if_neg hside] at hbk
      rw [Option.map_eq_some'] at hbk
      obtain ⟨s, hs, hbkeq⟩ := hbk
      obtain ⟨hle, n, hsn, hall⟩ := extendLoop_spec f (f 2) fuel 2 s hs
      exact ⟨s, hbkeq.symm, hle, n, hsn, hall⟩

/-- C8 witness: the theorem applied to the quadratic error x^2 (a valid
bracket, no extension needed) and a Brent oracle returning the true
minimum (0, 0). -/
theorem do_line_min_spec_witness :
    (bracketOf sqErr 1 = some [-2, 0, 2]) ∧
    (((do_line_min sqErr brentZero 1 = Except.error "wtf" ↔
        sqErr 0 < (brentZero [-2, 0, 2]).2) ∧
      ((brentZero [-2, 0, 2]).2 ≤ sqErr 0 →
        do_line_min sqErr brentZero 1 = Except.ok (brentZero [-2, 0, 2]).1)) ∧
     ((¬ sqErr 0 > min (sqErr (-2)) (sqErr 2)) →
        ([-2, 0, 2] : List ℚ) = [-2, 0, 2]) ∧
     (sqErr 0 > min (sqErr (-2)) (sqErr 2) → sqErr (-2) < sqErr 2 →
      ∃ s, ([-2, 0, 2] : List ℚ) = [s, -2, 0] ∧ sqErr (-2) ≤ sqErr s ∧
        ∃ n : ℕ, s = 3 ^ (n + 1) * (-2) ∧
          ∀ k : ℕ, 1 ≤ k → k ≤ n → sqErr (3 ^ k * (-2)) < sqErr (-2)) ∧
     (sqErr 0 > min (sqErr (-2)) (sqErr 2) → ¬ sqErr (-2) < sqErr 2 →
      ∃ s, ([-2, 0, 2] : List ℚ) = [0, 2, s] ∧ sqErr 2 ≤ sqErr s ∧
        ∃ n : ℕ, s = 3 ^ (n + 1) * 2 ∧
          ∀ k : ℕ, 1 ≤ k → k ≤ n → sqErr (3 ^ k * 2) < sqErr 2)) := by
  have hbk : bracketOf sqErr 1 = some [-2, 0, 2] := by
    unfold bracketOf sqErr
    norm_num
  exact ⟨hbk, do_line_min_spec sqErr brentZero 1 [-2, 0, 2] hbk⟩

/-- C8 counterexample: a constant-zero error with a Brent oracle whose
reported minimum value exactly equals the step-0 error: the minimizer's
result is no better than the error at step 0, yet the code applies the
step (Except.ok) instead of raising the claimed RuntimeError, because the
check on line 499 accepts res.fun <= start_err. -/
theorem do_line_min_equal_error_no_raise :
    do_line_min (fun _ => (0 : ℚ)) (fun _ => ((1 : ℚ), (0 : ℚ))) 1 =
      Except.ok 1 ∧
    ((fun _ => ((1 : ℚ), (0 : ℚ))) ([-2, 0, 2] : List ℚ)).2 =
      (fun _ => (0 : ℚ)) (0 : ℚ) := by
  constructor
  · rfl
  · rfl

/-- C4: in do_levmarq, when both trial errors exceed the starting error the
iteration restores the snapshot p0, sets recalc_J false, adds 0.1 to the
counter, and either inverts ddamp (err0 < err1, damp unchanged) or
multiplies damp by ddamp^2 (otherwise, ddamp unchanged); an accepted
iteration adds 1 to the counter; and the outer loop runs exactly while
counter < num_iter. -/
theorem levmarq_bad_step_budget {P J G : Type} [Add P] (computeJ : P → J)
    (computeGrad : J → P → G) (solve : J → G → ℚ → P) (err : P → ℚ)
    (do_run : Bool) (run_length : ℕ) (st : LMState P J G)
    (Jv : J) (gradv : G) (d0 d1 : P)
    (hJ : Jv = if st.recalcJ then computeJ st.p else st.Jv)
    (hG : gradv = if st.recalcJ then computeGrad Jv st.p else st.gradv)
    (hd0 : d0 = solve Jv gradv st.damp)
    (hd1 : d1 = solve Jv gradv (st.damp * st.ddamp)) :
    (min (err (st.p + d0)) (err (st.p + d1)) > err st.p →
      ((do_levmarq_step computeJ computeGrad solve err do_run run_length st).p
          = st.p ∧
       (do_levmarq_step computeJ computeGrad solve err do_run run_length
          st).recalcJ = false ∧
       (do_levmarq_step computeJ computeGrad solve err do_run run_length
          st).counter = st.counter + 1 / 10 ∧
       (err (st.p + d0) < err (st.p + d1) →
         (do_levmarq_step computeJ computeGrad solve err do_run run_length
            st).ddamp = st.ddamp⁻¹ ∧
         (do_levmarq_step computeJ computeGrad solve err do_run run_length
            st).damp = st.damp) ∧
       (¬ err (st.p + d0) < err (st.p + d1) →
         (do_levmarq_step computeJ computeGrad solve err do_run run_length
            st).damp = st.damp * (st.ddamp * st.ddamp) ∧
         (do_levmarq_step computeJ computeGrad solve err do_run run_length
            st).ddamp = st.ddamp))) ∧
    (¬ min (err (st.p + d0)) (err (st.p + d1)) > err st.p →
      (do_levmarq_step computeJ computeGrad solve err do_run run_length
        st).counter = st.counter + 1) ∧
    (∀ (n : ℕ) (num_iter : ℚ),
      do_levmarq_loop computeJ computeGrad solve err do_run run_length num_iter
        (n + 1) st =
      if st.counter < num_iter then
        do_levmarq_loop computeJ computeGrad solve err do_run run_length
          num_iter n
          (do_levmarq_step computeJ computeGrad solve err do_run run_length st)
      else st) := by
  subst hd0
  subst hd1
  subst hG
  subst hJ
  refine ⟨?_, ?_, ?_⟩
  · intro hbad
    have hstep : do_levmarq_step computeJ computeGrad solve err do_run
        run_length st =
        { p := st.p, recalcJ := false, counter := st.counter + 1 / 10,
          ddamp := if err (st.p + solve
              (if st.recalcJ then computeJ st.p else st.Jv)
              (if st.recalcJ then computeGrad
                (if st.recalcJ then computeJ st.p else st.Jv) st.p
               else st.gradv) st.damp) <
            err (st.p + solve (if st.recalcJ then computeJ st.p else st.Jv)
              (if st.recalcJ then computeGrad
                (if st.recalcJ then computeJ st.p else st.Jv) st.p
               else st.gradv) (st.damp * st.ddamp))
            then st.ddamp⁻¹ else st.ddamp,
          damp := if err (st.p + solve
              (if st.recalcJ then computeJ st.p else st.Jv)
              (if st.recalcJ then computeGrad
                (if st.recalcJ then computeJ st.p else st.Jv) st.p
               else st.gradv) st.damp) <
            err (st.p + solve (if st.recalcJ then computeJ st.p else st.Jv)
              (if st.recalcJ then computeGrad
                (if st.recalcJ then computeJ st.p else st.Jv) st.p
               else st.gradv) (st.damp * st.ddamp))
            then st.damp else st.damp * (st.ddamp * st.ddamp),
          Jv := if st.recalcJ then computeJ st.p else st.Jv,
          gradv := if st.recalcJ then computeGrad
            (if st.recalcJ then computeJ st.p else st.Jv) st.p
            else st.gradv } := by
      simp only [do_levmarq_step]
      rw [if_pos hbad]
    rw [hstep]
    refine ⟨rfl, rfl, rfl, ?_, ?_⟩
    · intro hlt
      constructor
      · show (if _ then st.ddamp⁻¹ else st.ddamp) = st.ddamp⁻¹
        rw [if_pos hlt]
      · show (if _ then st.damp else st.damp * (st.ddamp * st.ddamp)) = st.damp
        rw [if_pos hlt]
    · intro hge
      constructor
      · show (if _ then st.damp else st.damp * (st.ddamp * st.ddamp)) =
          st.damp * (st.ddamp * st.ddamp)
        rw [if_neg hge]
      · show (if _ then st.ddamp⁻¹ else st.ddamp) = st.ddamp
        rw [if_neg hge]
  · intro hgood
    simp only [do_levmarq_step]
    rw [if_neg hgood]
  · intro n num_iter
    rfl

/-- C4 witness: the theorem applied at a concrete rejected iteration
(err_start 3, both trials 10). -/
theorem levmarq_bad_step_budget_witness :
    ((( ) = if stQ0.recalcJ then unitJ stQ0.p else stQ0.Jv) ∧
     (( ) = if stQ0.recalcJ then unitG () stQ0.p else stQ0.gradv) ∧
     ((1 / 10 : ℚ) = solveDamp () () stQ0.damp) ∧
     ((1 / 100 : ℚ) = solveDamp () () (stQ0.damp * stQ0.ddamp)) ∧
     min (errBad (stQ0.p + 1 / 10)) (errBad (stQ0.p + 1 / 100)) >
       errBad stQ0.p) ∧
    ((min (errBad (stQ0.p + 1 / 10)) (errBad (stQ0.p + 1 / 100)) >
        errBad stQ0.p →
      ((do_levmarq_step unitJ unitG solveDamp errBad false 5 stQ0).p
          = stQ0.p ∧
       (do_levmarq_step unitJ unitG solveDamp errBad false 5 stQ0).recalcJ
          = false ∧
       (do_levmarq_step unitJ unitG solveDamp errBad false 5 stQ0).counter
          = stQ0.counter + 1 / 10 ∧
       (errBad (stQ0.p + 1 / 10) < errBad (stQ0.p + 1 / 100) →
         (do_levmarq_step unitJ unitG solveDamp errBad false 5 stQ0).ddamp
            = stQ0.ddamp⁻¹ ∧
         (do_levmarq_step unitJ unitG solveDamp errBad false 5 stQ0).damp
            = stQ0.damp) ∧
       (¬ errBad (stQ0.p + 1 / 10) < errBad (stQ0.p + 1 / 100) →
         (do_levmarq_step unitJ unitG solveDamp errBad false 5 stQ0).damp
            = stQ0.damp * (stQ0.ddamp * stQ0.ddamp) ∧
         (do_levmarq_step unitJ unitG solveDamp errBad false 5 stQ0).ddamp
            = stQ0.ddamp))) ∧
     (¬ min (errBad (stQ0.p + 1 / 10)) (errBad (stQ0.p + 1 / 100)) >
        errBad stQ0.p →
      (do_levmarq_step unitJ unitG solveDamp errBad false 5 stQ0).counter
        = stQ0.counter + 1) ∧
     (∀ (n : ℕ) (num_iter : ℚ),
        do_levmarq_loop unitJ unitG solveDamp errBad false 5 num_iter (n + 1)
          stQ0 =
        if stQ0.counter < num_iter then
          do_levmarq_loop unitJ unitG solveDamp errBad false 5 num_iter n
            (do_levmarq_step unitJ unitG solveDamp errBad false 5 stQ0)
        else stQ0)) := by
  have hbad : min (errBad (stQ0.p + 1 / 10)) (errBad (stQ0.p + 1 / 100)) >
      errBad stQ0.p := by
    simp only [errBad, stQ0]
    norm_num
  have hd0 : (1 / 10 : ℚ) = solveDamp () () stQ0.damp := by
    simp [solveDamp, stQ0]
  have hd1 : (1 / 100 : ℚ) = solveDamp () () (stQ0.damp * stQ0.ddamp) := by
    simp [solveDamp, stQ0]
    norm_num
  refine ⟨⟨rfl, rfl, hd0, hd1, hbad⟩, ?_⟩
  exact levmarq_bad_step_budget unitJ unitG solveDamp errBad false 5 stQ0
    () () (1 / 10) (1 / 100) rfl rfl hd0 hd1

/-- C2 counterexample: an exact two-trial tie (err_start = err0 = err1 = 0,
a good step) in do_levmarq with distinct trial steps d0 = 1/10, d1 = 1/100:
the code's comparison err0 < err1 is false on equality, so the kept
parameters are p0 + d1 (the smaller-damping step), not the claimed p0 + d0,
and damp shrinks to damp*ddamp. -/
theorem levmarq_tie_keeps_err1_step :
    (errZero (stQ0.p + solveDamp () () stQ0.damp) =
      errZero (stQ0.p + solveDamp () () (stQ0.damp * stQ0.ddamp))) ∧
    (do_levmarq_step unitJ unitG solveDamp errZero false 5 stQ0).p = 1 / 100 ∧
    stQ0.p + solveDamp () () stQ0.damp = 1 / 10 ∧
    ((1 / 100 : ℚ) ≠ 1 / 10) ∧
    (do_levmarq_step unitJ unitG solveDamp errZero false 5 stQ0).damp
      = 1 / 100 := by
  refine ⟨rfl, ?_, ?_, by norm_num, ?_⟩
  · norm_num [do_levmarq_step, solveDamp, unitJ, unitG, errZero, stQ0]
  · show (0 : ℚ) + 1 / 10 = 1 / 10
    norm_num
  · norm_num [do_levmarq_step, solveDamp, unitJ, unitG, errZero, stQ0]

theorem update_one_particle_ok_of_good (shape : QVec3) (q : Particle)
    (dp : QVec3) (dr : ℚ) (fe : Bool)
    (h : is_bad_update shape (q.pos + dp) (q.rad + dr) = false) :
    update_one_particle shape q dp dr none true fe =
      Except.ok ⟨q.pos + dp, q.rad + dr, q.typ⟩ := by
  cases fe <;> simp [update_one_particle, h]

theorem update_particles_singleton (shape : QVec3) (fe : Bool) (q : Particle)
    (d : PDelta) (q2 : Particle)
    (h : update_one_particle shape q d.dpos d.drad none true fe =
      Except.ok q2) :
    update_particles shape fe [q] [d] = Except.ok [q2] := by
  simp only [update_particles, h]
  rfl

theorem except_bind_ok {ε α β : Type} (a : α) (f : α → Except ε β) :
    (Except.ok (ε := ε) a >>= f) = f a := rfl

theorem zipSub_singleton (a b : PDelta) :
    zipSub [a] [b] = [⟨a.dpos - b.dpos, a.drad - b.drad⟩] := rfl

theorem negD_singleton (a : PDelta) : negD [a] = [⟨-a.dpos, -a.drad⟩] := rfl

theorem except_pure_bind {ε α β : Type} (a : α) (f : α → Except ε β) :
    ((pure a : Except ε α) >>= f) = f a := rfl

/-- C2 (amended): in a good-step iteration of do_levmarq (no internal run),
err0 < err1 keeps p0+d0 with damp unchanged; otherwise - including exact
equality err0 = err1, where the tie goes to the smaller-damping err1 trial -
the parameters end at p0+d1 and damp becomes damp*ddamp.  In
do_levmarq_particles the same damp rule holds, but in the err0 < err1
branch line 900 applies the relative update d1-d0 a second time instead of
undoing it, so (when no clamping occurs) the particle parameters end at
p0 + 2*d1 - d0 rather than p0 + d0. -/
theorem levmarq_good_step_behavior :
    (∀ (P J G : Type) [Add P] (computeJ : P → J) (computeGrad : J → P → G)
      (solve : J → G → ℚ → P) (err : P → ℚ) (run_length : ℕ)
      (st : LMState P J G) (d0 d1 : P),
      d0 = solve (if st.recalcJ then computeJ st.p else st.Jv)
        (if st.recalcJ then computeGrad
          (if st.recalcJ then computeJ st.p else st.Jv) st.p else st.gradv)
        st.damp →
      d1 = solve (if st.recalcJ then computeJ st.p else st.Jv)
        (if st.recalcJ then computeGrad
          (if st.recalcJ then computeJ st.p else st.Jv) st.p else st.gradv)
        (st.damp * st.ddamp) →
      ¬ min (err (st.p + d0)) (err (st.p + d1)) > err st.p →
      ((err (st.p + d0) < err (st.p + d1) →
        (do_levmarq_step computeJ computeGrad solve err false run_length st).p
            = st.p + d0 ∧
        (do_levmarq_step computeJ computeGrad solve err false run_length
          st).damp = st.damp) ∧
       (¬ err (st.p + d0) < err (st.p + d1) →
        (do_levmarq_step computeJ computeGrad solve err false run_length st).p
            = st.p + d1 ∧
        (do_levmarq_step computeJ computeGrad solve err false run_length
          st).damp = st.damp * st.ddamp) ∧
       (do_levmarq_step computeJ computeGrad solve err false run_length
          st).ddamp = st.ddamp ∧
       (do_levmarq_step computeJ computeGrad solve err false run_length
          st).counter = st.counter + 1)) ∧
    (∀ (J G : Type) (shape : QVec3) (computeJ : List Particle → J)
      (computeGrad : J → List Particle → G)
      (solve : J → G → ℚ → List PDelta) (err : List Particle → ℚ)
      (run_length : ℕ) (st : PLMState J) (q : Particle) (d0 d1 : PDelta),
      st.parts = [q] →
      solve (if st.recalcJ then computeJ st.parts else st.Jv)
        (computeGrad (if st.recalcJ then computeJ st.parts else st.Jv)
          st.parts) st.damp = [d0] →
      solve (if st.recalcJ then computeJ st.parts else st.Jv)
        (computeGrad (if st.recalcJ then computeJ st.parts else st.Jv)
          st.parts) (st.damp * st.ddamp) = [d1] →
      is_bad_update shape (q.pos + d0.dpos) (q.rad + d0.drad) = false →
      is_bad_update shape (q.pos + d0.dpos + (d1.dpos - d0.dpos))
        (q.rad + d0.drad + (d1.drad - d0.drad)) = false →
      is_bad_update shape
        (q.pos + d0.dpos + (d1.dpos - d0.dpos) + (d1.dpos - d0.dpos))
        (q.rad + d0.drad + (d1.drad - d0.drad) + (d1.drad - d0.drad))
        = false →
      ¬ min (err [⟨q.pos + d0.dpos, q.rad + d0.drad, q.typ⟩])
          (err [⟨q.pos + d0.dpos + (d1.dpos - d0.dpos),
            q.rad + d0.drad + (d1.drad - d0.drad), q.typ⟩]) > err st.parts →
      err [⟨q.pos + d0.dpos, q.rad + d0.drad, q.typ⟩] <
        err [⟨q.pos + d0.dpos + (d1.dpos - d0.dpos),
          q.rad + d0.drad + (d1.drad - d0.drad), q.typ⟩] →
      do_levmarq_particles_step shape computeJ computeGrad solve err false
        run_length st = Except.ok
        { parts := [⟨q.pos + d0.dpos + (d1.dpos - d0.dpos) +
              (d1.dpos - d0.dpos),
            q.rad + d0.drad + (d1.drad - d0.drad) + (d1.drad - d0.drad),
            q.typ⟩],
          damp := st.damp, ddamp := st.ddamp, counter := st.counter + 1,
          recalcJ := true,
          Jv := if st.recalcJ then computeJ st.parts else st.Jv,
          warned := false, didReset := false }) ∧
    (∀ (q : Particle) (d0 d1 : PDelta),
      (q.pos + d0.dpos + (d1.dpos - d0.dpos) + (d1.dpos - d0.dpos)).x =
        q.pos.x + 2 * d1.dpos.x - d0.dpos.x) := by
  refine ⟨?_, ?_, ?_⟩
  · intro P J G _ computeJ computeGrad solve err run_length st d0 d1 hd0 hd1
      hgood
    subst hd0
    subst hd1
    have hstep : do_levmarq_step computeJ computeGrad solve err false
        run_length st =
        { p := if err (st.p + solve
              (if st.recalcJ then computeJ st.p else st.Jv)
              (if st.recalcJ then computeGrad
                (if st.recalcJ then computeJ st.p else st.Jv) st.p
               else st.gradv) st.damp) <
            err (st.p + solve (if st.recalcJ then computeJ st.p else st.Jv)
              (if st.recalcJ then computeGrad
                (if st.recalcJ then computeJ st.p else st.Jv) st.p
               else st.gradv) (st.damp * st.ddamp))
            then st.p + solve (if st.recalcJ then computeJ st.p else st.Jv)
              (if st.recalcJ then computeGrad
                (if st.recalcJ then computeJ st.p else st.Jv) st.p
               else st.gradv) st.damp
            else st.p + solve (if st.recalcJ then computeJ st.p else st.Jv)
              (if st.recalcJ then computeGrad
                (if st.recalcJ then computeJ st.p else st.Jv) st.p
               else st.gradv) (st.damp * st.ddamp),
          damp := if err (st.p + solve
              (if st.recalcJ then computeJ st.p else st.Jv)
              (if st.recalcJ then computeGrad
                (if st.recalcJ then computeJ st.p else st.Jv) st.p
               else st.gradv) st.damp) <
            err (st.p + solve (if st.recalcJ then computeJ st.p else st.Jv)
              (if st.recalcJ then computeGrad
                (if st.recalcJ then computeJ st.p else st.Jv) st.p
               else st.gradv) (st.damp * st.ddamp))
            then st.damp else st.damp * st.ddamp,
          ddamp := st.ddamp, counter := st.counter + 1, recalcJ := true,
          Jv := if st.recalcJ then computeJ st.p else st.Jv,
          gradv := if st.recalcJ then computeGrad
            (if st.recalcJ then computeJ st.p else st.Jv) st.p
            else st.gradv } := by
      simp only [do_levmarq_step]
      rw [if_neg hgood]
      simp
    rw [hstep]
    refine ⟨?_, ?_, rfl, rfl⟩
    · intro hlt
      constructor
      · show (if _ then _ else _) = _
        rw [if_pos hlt]
      · show (if _ then st.damp else st.damp * st.ddamp) = st.damp
        rw [if_pos hlt]
    · intro hge
      constructor
      · show (if _ then _ else _) = _
        rw [if_neg hge]
      · show (if _ then st.damp else st.damp * st.ddamp) = st.damp * st.ddamp
        rw [if_neg hge]
  · intro J G shape computeJ computeGrad solve err run_length st q d0 d1
      hparts hd0 hd1 h1 h2 h3 hgood hlt
    have e1 : update_particles shape true st.parts [d0] =
        Except.ok [⟨q.pos + d0.dpos, q.rad + d0.drad, q.typ⟩] := by
      rw [hparts]
      exact update_particles_singleton shape true q d0 _
        (update_one_particle_ok_of_good shape q d0.dpos d0.drad true h1)
    have e2 : update_particles shape true
        [⟨q.pos + d0.dpos, q.rad + d0.drad, q.typ⟩]
        [⟨d1.dpos - d0.dpos, d1.drad - d0.drad⟩] =
        Except.ok [⟨q.pos + d0.dpos + (d1.dpos - d0.dpos),
          q.rad + d0.drad + (d1.drad - d0.drad), q.typ⟩] := by
      exact update_particles_singleton shape true _ _ _
        (update_one_particle_ok_of_good shape
          ⟨q.pos + d0.dpos, q.rad + d0.drad, q.typ⟩
          (d1.dpos - d0.dpos) (d1.drad - d0.drad) true h2)
    have e3 : update_particles shape false
        [⟨q.pos + d0.dpos + (d1.dpos - d0.dpos),
          q.rad + d0.drad + (d1.drad - d0.drad), q.typ⟩]
        [⟨d1.dpos - d0.dpos, d1.drad - d0.drad⟩] =
        Except.ok [⟨q.pos + d0.dpos + (d1.dpos - d0.dpos) +
            (d1.dpos - d0.dpos),
          q.rad + d0.drad + (d1.drad - d0.drad) + (d1.drad - d0.drad),
          q.typ⟩] := by
      exact update_particles_singleton shape false _ _ _
        (update_one_particle_ok_of_good shape
          ⟨q.pos + d0.dpos + (d1.dpos - d0.dpos),
            q.rad + d0.drad + (d1.drad - d0.drad), q.typ⟩
          (d1.dpos - d0.dpos) (d1.drad - d0.drad) false h3)
    simp only [do_levmarq_particles_step]
    rw [hd0, hd1, e1, except_bind_ok, zipSub_singleton, e2, except_bind_ok]
    rw [if_neg hgood]
    rw [if_pos hlt, e3, except_bind_ok]
    simp only [Bool.false_eq_true, if_false, except_pure_bind]
    rw [if_pos hlt]
    rfl
  · intro q d0 d1
    simp only [QVec3.add_x, QVec3.sub_x]
    ring

/-- C2 witness: the amended theorem applied to a concrete good step with
err0 < err1 in both optimizers (the do_levmarq instance keeps p0+d0; the
do_levmarq_particles instance ends at p0 + 2*d1 - d0). -/
theorem levmarq_good_step_behavior_witness :
    ((¬ min (errGood (stQ0.p + 1 / 10)) (errGood (stQ0.p + 1 / 100)) >
        errGood stQ0.p) ∧
     (errGood (stQ0.p + 1 / 10) < errGood (stQ0.p + 1 / 100)) ∧
     ((do_levmarq_step unitJ unitG solveDamp errGood false 5 stQ0).p
        = stQ0.p + 1 / 10) ∧
     ((do_levmarq_step unitJ unitG solveDamp errGood false 5 stQ0).damp
        = stQ0.damp)) ∧
    ((¬ min (errC1 [⟨⟨5, 5, 5⟩ + ⟨1, 0, 0⟩, 1 + 0, 1⟩])
        (errC1 [⟨⟨5, 5, 5⟩ + ⟨1, 0, 0⟩ + (⟨2, 0, 0⟩ - ⟨1, 0, 0⟩),
          1 + 0 + (0 - 0), 1⟩]) > errC1 stP0.parts) ∧
     (do_levmarq_particles_step shape10 unitPJ unitPG solveC1 errC1 false 5
        stP0 = Except.ok
        { parts := [⟨⟨5, 5, 5⟩ + ⟨1, 0, 0⟩ + (⟨2, 0, 0⟩ - ⟨1, 0, 0⟩) +
              (⟨2, 0, 0⟩ - ⟨1, 0, 0⟩), 1 + 0 + (0 - 0) + (0 - 0), 1⟩],
          damp := stP0.damp, ddamp := stP0.ddamp,
          counter := stP0.counter + 1, recalcJ := true,
          Jv := if stP0.recalcJ then unitPJ stP0.parts else stP0.Jv,
          warned := false, didReset := false })) ∧
    ((⟨5, 5, 5⟩ + ⟨1, 0, 0⟩ + (⟨2, 0, 0⟩ - ⟨1, 0, 0⟩) +
        (⟨2, 0, 0⟩ - ⟨1, 0, 0⟩) : QVec3).x = (⟨5, 5, 5⟩ : QVec3).x +
        2 * (⟨2, 0, 0⟩ : QVec3).x - (⟨1, 0, 0⟩ : QVec3).x) := by
  have hd0A : (1 / 10 : ℚ) = solveDamp
      (if stQ0.recalcJ then unitJ stQ0.p else stQ0.Jv)
      (if stQ0.recalcJ then unitG
        (if stQ0.recalcJ then unitJ stQ0.p else stQ0.Jv) stQ0.p
       else stQ0.gradv) stQ0.damp := by
    simp [solveDamp, stQ0]
  have hd1A : (1 / 100 : ℚ) = solveDamp
      (if stQ0.recalcJ then unitJ stQ0.p else stQ0.Jv)
      (if stQ0.recalcJ then unitG
        (if stQ0.recalcJ then unitJ stQ0.p else stQ0.Jv) stQ0.p
       else stQ0.gradv) (stQ0.damp * stQ0.ddamp) := by
    simp [solveDamp, stQ0]
    norm_num
  have hgoodA : ¬ min (errGood (stQ0.p + 1 / 10))
      (errGood (stQ0.p + 1 / 100)) > errGood stQ0.p := by
    norm_num [errGood, stQ0]
  have hltA : errGood (stQ0.p + 1 / 10) < errGood (stQ0.p + 1 / 100) := by
    norm_num [errGood, stQ0]
  have hA := (levmarq_good_step_behavior.1 ℚ Unit Unit unitJ unitG solveDamp
    errGood 5 stQ0 (1 / 10) (1 / 100) hd0A hd1A hgoodA).1 hltA
  have hpartsB : stP0.parts = [⟨⟨5, 5, 5⟩, 1, 1⟩] := rfl
  have hd0B : solveC1 (if stP0.recalcJ then unitPJ stP0.parts else stP0.Jv)
      (unitPG (if stP0.recalcJ then unitPJ stP0.parts else stP0.Jv)
        stP0.parts) stP0.damp = [⟨⟨1, 0, 0⟩, 0⟩] := by
    simp [solveC1, stP0]
  have hd1B : solveC1 (if stP0.recalcJ then unitPJ stP0.parts else stP0.Jv)
      (unitPG (if stP0.recalcJ then unitPJ stP0.parts else stP0.Jv)
        stP0.parts) (stP0.damp * stP0.ddamp) = [⟨⟨2, 0, 0⟩, 0⟩] := by
    simp only [solveC1, stP0]
    norm_num
  have h1B : is_bad_update shape10 ((⟨5, 5, 5⟩ : QVec3) + ⟨1, 0, 0⟩)
      ((1 : ℚ) + 0) = false := by
    rw [is_bad_update_false_iff]
    norm_num [shape10]
  have h2B : is_bad_update shape10
      ((⟨5, 5, 5⟩ : QVec3) + ⟨1, 0, 0⟩ + ((⟨2, 0, 0⟩ : QVec3) - ⟨1, 0, 0⟩))
      ((1 : ℚ) + 0 + ((0 : ℚ) - 0)) = false := by
    rw [is_bad_update_false_iff]
    norm_num [shape10]
  have h3B : is_bad_update shape10
      ((⟨5, 5, 5⟩ : QVec3) + ⟨1, 0, 0⟩ + ((⟨2, 0, 0⟩ : QVec3) - ⟨1, 0, 0⟩) +
        ((⟨2, 0, 0⟩ : QVec3) - ⟨1, 0, 0⟩))
      ((1 : ℚ) + 0 + ((0 : ℚ) - 0) + ((0 : ℚ) - 0)) = false := by
    rw [is_bad_update_false_iff]
    norm_num [shape10]
  have hgoodB : ¬ min (errC1 [⟨⟨5, 5, 5⟩ + ⟨1, 0, 0⟩, 1 + 0, 1⟩])
      (errC1 [⟨⟨5, 5, 5⟩ + ⟨1, 0, 0⟩ + (⟨2, 0, 0⟩ - ⟨1, 0, 0⟩),
        1 + 0 + (0 - 0), 1⟩]) > errC1 stP0.parts := by
    norm_num [errC1, stP0]
  have hltB : errC1 [⟨⟨5, 5, 5⟩ + ⟨1, 0, 0⟩, 1 + 0, 1⟩] <
      errC1 [⟨⟨5, 5, 5⟩ + ⟨1, 0, 0⟩ + (⟨2, 0, 0⟩ - ⟨1, 0, 0⟩),
        1 + 0 + (0 - 0), 1⟩] := by
    norm_num [errC1]
  have hB := levmarq_good_step_behavior.2.1 Unit Unit shape10 unitPJ unitPG
    solveC1 errC1 5 stP0 ⟨⟨5, 5, 5⟩, 1, 1⟩ ⟨⟨1, 0, 0⟩, 0⟩ ⟨⟨2, 0, 0⟩, 0⟩
    hpartsB hd0B hd1B h1B h2B h3B hgoodB hltB
  have hC := levmarq_good_step_behavior.2.2 ⟨⟨5, 5, 5⟩, 1, 1⟩
    ⟨⟨1, 0, 0⟩, 0⟩ ⟨⟨2, 0, 0⟩, 0⟩
  exact ⟨⟨hgoodA, hltA, hA.1, hA.2⟩, ⟨hgoodB, hB⟩, hC⟩

/-- C1 (failing input): a concrete accepted (good) outer iteration of
do_levmarq_particles with err_start = 3, err0 = 1 < err1 = 2, in which the
iteration nevertheless ends (because line 900 re-applies d1-d0 instead of
undoing it) at a state whose error is 100 > 3: an accepted step strictly
increases the total squared residual, contradicting the claimed
monotonicity.  (do_levmarq itself restores p0+d0 absolutely and does
satisfy the claim.) -/
theorem particles_good_step_error_can_increase :
    (do_levmarq_particles_step shape10 unitPJ unitPG solveC1 errC1 false 5
      stP0 = Except.ok
      { parts := [⟨⟨5, 5, 5⟩ + ⟨1, 0, 0⟩ + (⟨2, 0, 0⟩ - ⟨1, 0, 0⟩) +
            (⟨2, 0, 0⟩ - ⟨1, 0, 0⟩), 1 + 0 + (0 - 0) + (0 - 0), 1⟩],
        damp := stP0.damp, ddamp := stP0.ddamp,
        counter := stP0.counter + 1, recalcJ := true,
        Jv := if stP0.recalcJ then unitPJ stP0.parts else stP0.Jv,
        warned := false, didReset := false }) ∧
    errC1 [⟨⟨5, 5, 5⟩ + ⟨1, 0, 0⟩ + (⟨2, 0, 0⟩ - ⟨1, 0, 0⟩) +
      (⟨2, 0, 0⟩ - ⟨1, 0, 0⟩), 1 + 0 + (0 - 0) + (0 - 0), 1⟩] = 100 ∧
    errC1 stP0.parts = 3 ∧
    min (errC1 [⟨⟨5, 5, 5⟩ + ⟨1, 0, 0⟩, 1 + 0, 1⟩])
      (errC1 [⟨⟨5, 5, 5⟩ + ⟨1, 0, 0⟩ + (⟨2, 0, 0⟩ - ⟨1, 0, 0⟩),
        1 + 0 + (0 - 0), 1⟩]) ≤ errC1 stP0.parts ∧
    (100 : ℚ) > 3 := by
  have hd0B : solveC1 (if stP0.recalcJ then unitPJ stP0.parts else stP0.Jv)
      (unitPG (if stP0.recalcJ then unitPJ stP0.parts else stP0.Jv)
        stP0.parts) stP0.damp = [⟨⟨1, 0, 0⟩, 0⟩] := by
    simp [solveC1, stP0]
  have hd1B : solveC1 (if stP0.recalcJ then unitPJ stP0.parts else stP0.Jv)
      (unitPG (if stP0.recalcJ then unitPJ stP0.parts else stP0.Jv)
        stP0.parts) (stP0.damp * stP0.ddamp) = [⟨⟨2, 0, 0⟩, 0⟩] := by
    simp only [solveC1, stP0]
    norm_num
  have e1 : update_particles shape10 true stP0.parts [⟨⟨1, 0, 0⟩, 0⟩] =
      Except.ok [⟨⟨5, 5, 5⟩ + ⟨1, 0, 0⟩, 1 + 0, 1⟩] := by
    show update_particles shape10 true [⟨⟨5, 5, 5⟩, 1, 1⟩] _ = _
    exact update_particles_singleton shape10 true ⟨⟨5, 5, 5⟩, 1, 1⟩
      ⟨⟨1, 0, 0⟩, 0⟩ _ (update_one_particle_ok_of_good shape10
        ⟨⟨5, 5, 5⟩, 1, 1⟩ ⟨1, 0, 0⟩ 0 true
        (by rw [is_bad_update_false_iff]; norm_num [shape10]))
  have e2 : update_particles shape10 true
      [⟨⟨5, 5, 5⟩ + ⟨1, 0, 0⟩, 1 + 0, 1⟩]
      [⟨⟨2, 0, 0⟩ - ⟨1, 0, 0⟩, 0 - 0⟩] =
      Except.ok [⟨⟨5, 5, 5⟩ + ⟨1, 0, 0⟩ + (⟨2, 0, 0⟩ - ⟨1, 0, 0⟩),
        1 + 0 + (0 - 0), 1⟩] := by
    exact update_particles_singleton shape10 true _ _ _
      (update_one_particle_ok_of_good shape10
        ⟨⟨5, 5, 5⟩ + ⟨1, 0, 0⟩, 1 + 0, 1⟩ (⟨2, 0, 0⟩ - ⟨1, 0, 0⟩) (0 - 0)
        true (by rw [is_bad_update_false_iff]; norm_num [shape10]))
  have e3 : update_particles shape10 false
      [⟨⟨5, 5, 5⟩ + ⟨1, 0, 0⟩ + (⟨2, 0, 0⟩ - ⟨1, 0, 0⟩),
        1 + 0 + (0 - 0), 1⟩]
      [⟨⟨2, 0, 0⟩ - ⟨1, 0, 0⟩, 0 - 0⟩] =
      Except.ok [⟨⟨5, 5, 5⟩ + ⟨1, 0, 0⟩ + (⟨2, 0, 0⟩ - ⟨1, 0, 0⟩) +
        (⟨2, 0, 0⟩ - ⟨1, 0, 0⟩), 1 + 0 + (0 - 0) + (0 - 0), 1⟩] := by
    exact update_particles_singleton shape10 false _ _ _
      (update_one_particle_ok_of_good shape10
        ⟨⟨5, 5, 5⟩ + ⟨1, 0, 0⟩ + (⟨2, 0, 0⟩ - ⟨1, 0, 0⟩),
          1 + 0 + (0 - 0), 1⟩ (⟨2, 0, 0⟩ - ⟨1, 0, 0⟩) (0 - 0)
        false (by rw [is_bad_update_false_iff]; norm_num [shape10]))
  have hgood : ¬ min (errC1 [⟨⟨5, 5, 5⟩ + ⟨1, 0, 0⟩, 1 + 0, 1⟩])
      (errC1 [⟨⟨5, 5, 5⟩ + ⟨1, 0, 0⟩ + (⟨2, 0, 0⟩ - ⟨1, 0, 0⟩),
        1 + 0 + (0 - 0), 1⟩]) > errC1 stP0.parts := by
    norm_num [errC1, stP0]
  have hlt : errC1 [⟨⟨5, 5, 5⟩ + ⟨1, 0, 0⟩, 1 + 0, 1⟩] <
      errC1 [⟨⟨5, 5, 5⟩ + ⟨1, 0, 0⟩ + (⟨2, 0, 0⟩ - ⟨1, 0, 0⟩),
        1 + 0 + (0 - 0), 1⟩] := by
    norm_num [errC1]
  refine ⟨?_, by norm_num [errC1], by norm_num [errC1, stP0],
    by norm_num [errC1, stP0], by norm_num⟩
  simp only [do_levmarq_particles_step]
  rw [hd0B, hd1B, e1, except_bind_ok, zipSub_singleton, e2, except_bind_ok]
  rw [if_neg hgood]
  rw [if_pos hlt, e3, except_bind_ok]
  simp only [Bool.false_eq_true, if_false, except_pure_bind]
  rw [if_pos hlt]
  rfl

theorem qvec_ext (a b : QVec3) (hx : a.x = b.x) (hy : a.y = b.y)
    (hz : a.z = b.z) : a = b := by
  cases a
  cases b
  simp_all

theorem qvec_neg_sub_cancel (u v : QVec3) : -(u - v) - v = -u := by
  apply qvec_ext <;> simp <;> ring

theorem zipSub_neg_cancel (d1 d0 : List PDelta) (h : d1.length = d0.length) :
    zipSub (negD (zipSub d1 d0)) d0 = negD d1 := by
  induction d1 generalizing d0 with
  | nil =>
    cases d0 with
    | nil => rfl
    | cons b t0 => simp at h
  | cons a t ih =>
    cases d0 with
    | nil => simp at h
    | cons b t0 =>
      show (⟨-(a.dpos - b.dpos) - b.dpos, -(a.drad - b.drad) - b.drad⟩ :
          PDelta) :: zipSub (negD (zipSub t t0)) t0 =
        (⟨-a.dpos, -a.drad⟩ : PDelta) :: negD t
      rw [qvec_neg_sub_cancel]
      rw [ih t0 (by simpa using h)]
      norm_num

/-- Concrete evaluation of the clamped first trial step of the C3 scenario:
the proposed relative move (-6,0,0) from (5,5,5) is out of bounds, so it is
clipped to land at x = 1e-6. -/
theorem clamp_step_eval :
    update_one_particle shape10 ⟨⟨5, 5, 5⟩, 1, 1⟩ ⟨-6, 0, 0⟩ 0 none true true
      = Except.ok ⟨⟨1 / 1000000, 5, 5⟩, 1, 1⟩ := by
  have hbad1 : is_bad_update shape10 ((⟨5, 5, 5⟩ : QVec3) + ⟨-6, 0, 0⟩)
      ((1 : ℚ) + 0) = true := by
    rw [is_bad_update_true_iff]
    norm_num [shape10]
  have hclipV : clipV ⟨-6, 0, 0⟩ (constV fixEps - ⟨5, 5, 5⟩)
      (shape10 - constV fixEps - ⟨5, 5, 5⟩) = ⟨fixEps - 5, 0, 0⟩ := by
    apply qvec_ext
    · simp only [clipV_x, QVec3.sub_x, constV_x, shape10]
      rw [clipQ, max_eq_right (by norm_num [fixEps]),
        min_eq_left (by norm_num [fixEps])]
    · simp only [clipV_y, QVec3.sub_y, constV_y, shape10]
      rw [clipQ, max_eq_left (by norm_num [fixEps]),
        min_eq_left (by norm_num [fixEps])]
    · simp only [clipV_z, QVec3.sub_z, constV_z, shape10]
      rw [clipQ, max_eq_left (by norm_num [fixEps]),
        min_eq_left (by norm_num [fixEps])]
  have hrad : max (0 : ℚ) (fixEps - 1) = 0 :=
    max_eq_left (by norm_num [fixEps])
  have hsum : (⟨5, 5, 5⟩ : QVec3) + ⟨fixEps - 5, 0, 0⟩ =
      ⟨1 / 1000000, 5, 5⟩ := by
    apply qvec_ext <;> simp <;> norm_num [fixEps]
  have hr1 : (1 : ℚ) + 0 = 1 := by norm_num
  have hfin : is_bad_update shape10 (⟨1 / 1000000, 5, 5⟩ : QVec3) (1 : ℚ)
      = false := by
    rw [is_bad_update_false_iff]
    norm_num [shape10]
  simp only [update_one_particle, eq_self_iff_true, if_true]
  rw [if_pos hbad1, hclipV, hrad, hsum, hr1]
  rw [if_neg (show
    ¬ (is_bad_update shape10 (⟨1 / 1000000, 5, 5⟩ : QVec3) (1 : ℚ) = true) by
    intro hcontra
    rw [hfin] at hcontra
    cases hcontra)]
  rfl

theorem rollback_up1 :
    update_particles shape10 true stP0.parts [⟨⟨-6, 0, 0⟩, 0⟩] =
      Except.ok [⟨⟨1 / 1000000, 5, 5⟩, 1, 1⟩] := by
  show update_particles shape10 true [⟨⟨5, 5, 5⟩, 1, 1⟩] _ = _
  exact update_particles_singleton shape10 true ⟨⟨5, 5, 5⟩, 1, 1⟩
    ⟨⟨-6, 0, 0⟩, 0⟩ _ clamp_step_eval

theorem rollback_up2 :
    update_particles shape10 true [⟨⟨1 / 1000000, 5, 5⟩, 1, 1⟩]
      [⟨(⟨0, 1, 0⟩ : QVec3) - ⟨-6, 0, 0⟩, (0 : ℚ) - 0⟩] =
      Except.ok [⟨⟨6000001 / 1000000, 6, 5⟩, 1, 1⟩] := by
  have hsum : (⟨1 / 1000000, 5, 5⟩ : QVec3) +
      ((⟨0, 1, 0⟩ : QVec3) - ⟨-6, 0, 0⟩) = ⟨6000001 / 1000000, 6, 5⟩ := by
    apply qvec_ext <;> simp <;> norm_num
  have hr : (1 : ℚ) + ((0 : ℚ) - 0) = 1 := by norm_num
  have h := update_particles_singleton shape10 true
    ⟨⟨1 / 1000000, 5, 5⟩, 1, 1⟩ ⟨(⟨0, 1, 0⟩ : QVec3) - ⟨-6, 0, 0⟩,
      (0 : ℚ) - 0⟩ _ (update_one_particle_ok_of_good shape10
      ⟨⟨1 / 1000000, 5, 5⟩, 1, 1⟩ ((⟨0, 1, 0⟩ : QVec3) - ⟨-6, 0, 0⟩)
      ((0 : ℚ) - 0) true (by
        rw [is_bad_update_false_iff]
        norm_num [shape10]))
  rw [hsum, hr] at h
  exact h

theorem rollback_up3 :
    update_particles shape10 false [⟨⟨6000001 / 1000000, 6, 5⟩, 1, 1⟩]
      [⟨-((⟨0, 1, 0⟩ : QVec3) - ⟨-6, 0, 0⟩) - ⟨-6, 0, 0⟩,
        -((0 : ℚ) - 0) - 0⟩] =
      Except.ok [⟨⟨6000001 / 1000000, 5, 5⟩, 1, 1⟩] := by
  have hsum : (⟨6000001 / 1000000, 6, 5⟩ : QVec3) +
      (-((⟨0, 1, 0⟩ : QVec3) - ⟨-6, 0, 0⟩) - ⟨-6, 0, 0⟩) =
      ⟨6000001 / 1000000, 5, 5⟩ := by
    apply qvec_ext <;> simp <;> norm_num
  have hr : (1 : ℚ) + (-((0 : ℚ) - 0) - 0) = 1 := by norm_num
  have h := update_particles_singleton shape10 false
    ⟨⟨6000001 / 1000000, 6, 5⟩, 1, 1⟩
    ⟨-((⟨0, 1, 0⟩ : QVec3) - ⟨-6, 0, 0⟩) - ⟨-6, 0, 0⟩, -((0 : ℚ) - 0) - 0⟩
    _ (update_one_particle_ok_of_good shape10
      ⟨⟨6000001 / 1000000, 6, 5⟩, 1, 1⟩
      (-((⟨0, 1, 0⟩ : QVec3) - ⟨-6, 0, 0⟩) - ⟨-6, 0, 0⟩)
      (-((0 : ℚ) - 0) - 0) false (by
        rw [is_bad_update_false_iff]
        norm_num [shape10]))
  rw [hsum, hr] at h
  exact h

/-- C3 (amended): on a rejected two-trial iteration, do_levmarq_particles
rolls back by applying the relative update -(d1-d0)-d0 (which cancels
algebraically to -d1 when the delta vectors have equal length), does not
raise, and emits the recoverable warning and the full model reset exactly
when the re-measured error strictly exceeds err_start + 1e-3; the check is
one-sided, so a rollback error far BELOW err_start triggers no warning or
reset (see the counterexample). -/
theorem particles_bad_step_rollback_behavior {J G : Type} (shape : QVec3)
    (computeJ : List Particle → J) (computeGrad : J → List Particle → G)
    (solve : J → G → ℚ → List PDelta) (err : List Particle → ℚ)
    (do_run : Bool) (run_length : ℕ) (st : PLMState J)
    (d0 d1 : List PDelta) (parts1 parts2 parts3 : List Particle)
    (hd0 : solve (if st.recalcJ then computeJ st.parts else st.Jv)
      (computeGrad (if st.recalcJ then computeJ st.parts else st.Jv)
        st.parts) st.damp = d0)
    (hd1 : solve (if st.recalcJ then computeJ st.parts else st.Jv)
      (computeGrad (if st.recalcJ then computeJ st.parts else st.Jv)
        st.parts) (st.damp * st.ddamp) = d1)
    (hp1 : update_particles shape true st.parts d0 = Except.ok parts1)
    (hp2 : update_particles shape true parts1 (zipSub d1 d0) =
      Except.ok parts2)
    (hbad : min (err parts1) (err parts2) > err st.parts)
    (hp3 : update_particles shape false parts2
      (zipSub (negD (zipSub d1 d0)) d0) = Except.ok parts3) :
    (do_levmarq_particles_step shape computeJ computeGrad solve err do_run
      run_length st = Except.ok
      { parts := parts3, recalcJ := false,
        counter := st.counter + 1 / 10,
        warned := decide (err parts3 > err st.parts + 1 / 1000),
        didReset := decide (err parts3 > err st.parts + 1 / 1000),
        ddamp := if err parts1 < err parts2 then st.ddamp⁻¹ else st.ddamp,
        damp := if err parts1 < err parts2 then st.damp
          else st.damp * (st.ddamp * st.ddamp),
        Jv := if st.recalcJ then computeJ st.parts else st.Jv }) ∧
    (decide (err parts3 > err st.parts + 1 / 1000) = true ↔
      err parts3 > err st.parts + 1 / 1000) ∧
    (d1.length = d0.length →
      zipSub (negD (zipSub d1 d0)) d0 = negD d1) := by
  refine ⟨?_, by simp, zipSub_neg_cancel d1 d0⟩
  simp only [do_levmarq_particles_step]
  rw [hd0, hd1, hp1, except_bind_ok, hp2, except_bind_ok]
  rw [if_pos hbad]
  rw [hp3, except_bind_ok]
  rfl

/-- C3 witness: the theorem applied at a concrete rejected iteration whose
rollback error (100) exceeds err_start + 1e-3, so the warning and reset
are emitted. -/
theorem particles_bad_step_rollback_behavior_witness :
    (min (errC3w [⟨⟨1 / 1000000, 5, 5⟩, 1, 1⟩])
      (errC3w [⟨⟨6000001 / 1000000, 6, 5⟩, 1, 1⟩]) > errC3w stP0.parts) ∧
    ((do_levmarq_particles_step shape10 unitPJ unitPG solveC3 errC3w false 5
      stP0 = Except.ok
      { parts := [⟨⟨6000001 / 1000000, 5, 5⟩, 1, 1⟩], recalcJ := false,
        counter := stP0.counter + 1 / 10,
        warned := decide (errC3w [⟨⟨6000001 / 1000000, 5, 5⟩, 1, 1⟩] >
          errC3w stP0.parts + 1 / 1000),
        didReset := decide (errC3w [⟨⟨6000001 / 1000000, 5, 5⟩, 1, 1⟩] >
          errC3w stP0.parts + 1 / 1000),
        ddamp := if errC3w [⟨⟨1 / 1000000, 5, 5⟩, 1, 1⟩] <
            errC3w [⟨⟨6000001 / 1000000, 6, 5⟩, 1, 1⟩] then stP0.ddamp⁻¹
          else stP0.ddamp,
        damp := if errC3w [⟨⟨1 / 1000000, 5, 5⟩, 1, 1⟩] <
            errC3w [⟨⟨6000001 / 1000000, 6, 5⟩, 1, 1⟩] then stP0.damp
          else stP0.damp * (stP0.ddamp * stP0.ddamp),
        Jv := if stP0.recalcJ then unitPJ stP0.parts else stP0.Jv }) ∧
     (decide (errC3w [⟨⟨6000001 / 1000000, 5, 5⟩, 1, 1⟩] >
        errC3w stP0.parts + 1 / 1000) = true ↔
      errC3w [⟨⟨6000001 / 1000000, 5, 5⟩, 1, 1⟩] >
        errC3w stP0.parts + 1 / 1000) ∧
     (([⟨(⟨0, 1, 0⟩ : QVec3), (0 : ℚ)⟩] : List PDelta).length =
        ([⟨(⟨-6, 0, 0⟩ : QVec3), (0 : ℚ)⟩] : List PDelta).length →
      zipSub (negD (zipSub [⟨(⟨0, 1, 0⟩ : QVec3), (0 : ℚ)⟩]
        [⟨(⟨-6, 0, 0⟩ : QVec3), (0 : ℚ)⟩]))
        [⟨(⟨-6, 0, 0⟩ : QVec3), (0 : ℚ)⟩] =
      negD [⟨(⟨0, 1, 0⟩ : QVec3), (0 : ℚ)⟩])) ∧
    errC3w [⟨⟨6000001 / 1000000, 5, 5⟩, 1, 1⟩] >
      errC3w stP0.parts + 1 / 1000 := by
  have hd0 : solveC3 (if stP0.recalcJ then unitPJ stP0.parts else stP0.Jv)
      (unitPG (if stP0.recalcJ then unitPJ stP0.parts else stP0.Jv)
        stP0.parts) stP0.damp = [⟨⟨-6, 0, 0⟩, 0⟩] := by
    simp [solveC3, stP0]
  have hd1 : solveC3 (if stP0.recalcJ then unitPJ stP0.parts else stP0.Jv)
      (unitPG (if stP0.recalcJ then unitPJ stP0.parts else stP0.Jv)
        stP0.parts) (stP0.damp * stP0.ddamp) = [⟨⟨0, 1, 0⟩, 0⟩] := by
    simp only [solveC3, stP0]
    norm_num
  have hp2 : update_particles shape10 true [⟨⟨1 / 1000000, 5, 5⟩, 1, 1⟩]
      (zipSub [⟨(⟨0, 1, 0⟩ : QVec3), (0 : ℚ)⟩]
        [⟨(⟨-6, 0, 0⟩ : QVec3), (0 : ℚ)⟩]) =
      Except.ok [⟨⟨6000001 / 1000000, 6, 5⟩, 1, 1⟩] := by
    rw [zipSub_singleton]
    exact rollback_up2
  have hp3 : update_particles shape10 false
      [⟨⟨6000001 / 1000000, 6, 5⟩, 1, 1⟩]
      (zipSub (negD (zipSub [⟨(⟨0, 1, 0⟩ : QVec3), (0 : ℚ)⟩]
        [⟨(⟨-6, 0, 0⟩ : QVec3), (0 : ℚ)⟩]))
        [⟨(⟨-6, 0, 0⟩ : QVec3), (0 : ℚ)⟩]) =
      Except.ok [⟨⟨6000001 / 1000000, 5, 5⟩, 1, 1⟩] := by
    rw [zipSub_singleton, negD_singleton, zipSub_singleton]
    exact rollback_up3
  have hbad : min (errC3w [⟨⟨1 / 1000000, 5, 5⟩, 1, 1⟩])
      (errC3w [⟨⟨6000001 / 1000000, 6, 5⟩, 1, 1⟩]) > errC3w stP0.parts := by
    norm_num [errC3w, stP0]
  have hout : errC3w [⟨⟨6000001 / 1000000, 5, 5⟩, 1, 1⟩] >
      errC3w stP0.parts + 1 / 1000 := by
    norm_num [errC3w, stP0]
  exact ⟨hbad, particles_bad_step_rollback_behavior shape10 unitPJ unitPG
    solveC3 errC3w false 5 stP0 [⟨⟨-6, 0, 0⟩, 0⟩] [⟨⟨0, 1, 0⟩, 0⟩]
    [⟨⟨1 / 1000000, 5, 5⟩, 1, 1⟩] [⟨⟨6000001 / 1000000, 6, 5⟩, 1, 1⟩]
    [⟨⟨6000001 / 1000000, 5, 5⟩, 1, 1⟩] hd0 hd1 rollback_up1 hp2 hbad hp3,
    hout⟩

/-- C3 counterexample: the same rejected iteration but with an error oracle
whose value at the rollback point is 1, far BELOW err_start = 10 (well
outside the 1e-3 tolerance), yet no warning is emitted and no reset is
forced, because line 883 only checks err > err_start + 1e-3: the claimed
two-sided "not within a small tolerance" trigger is false. -/
theorem particles_rollback_low_error_no_reset :
    (do_levmarq_particles_step shape10 unitPJ unitPG solveC3 errC3 false 5
      stP0 = Except.ok
      { parts := [⟨⟨6000001 / 1000000, 5, 5⟩, 1, 1⟩], recalcJ := false,
        counter := stP0.counter + 1 / 10, warned := false, didReset := false,
        ddamp := stP0.ddamp⁻¹, damp := stP0.damp,
        Jv := if stP0.recalcJ then unitPJ stP0.parts else stP0.Jv }) ∧
    errC3 [⟨⟨6000001 / 1000000, 5, 5⟩, 1, 1⟩] = 1 ∧
    errC3 stP0.parts = 10 ∧
    (10 : ℚ) - 1 > 1 / 1000 := by
  have hd0 : solveC3 (if stP0.recalcJ then unitPJ stP0.parts else stP0.Jv)
      (unitPG (if stP0.recalcJ then unitPJ stP0.parts else stP0.Jv)
        stP0.parts) stP0.damp = [⟨⟨-6, 0, 0⟩, 0⟩] := by
    simp [solveC3, stP0]
  have hd1 : solveC3 (if stP0.recalcJ then unitPJ stP0.parts else stP0.Jv)
      (unitPG (if stP0.recalcJ then unitPJ stP0.parts else stP0.Jv)
        stP0.parts) (stP0.damp * stP0.ddamp) = [⟨⟨0, 1, 0⟩, 0⟩] := by
    simp only [solveC3, stP0]
    norm_num
  have hbad : min (errC3 [⟨⟨1 / 1000000, 5, 5⟩, 1, 1⟩])
      (errC3 [⟨⟨6000001 / 1000000, 6, 5⟩, 1, 1⟩]) > errC3 stP0.parts := by
    norm_num [errC3, stP0]
  have hlt : errC3 [⟨⟨1 / 1000000, 5, 5⟩, 1, 1⟩] <
      errC3 [⟨⟨6000001 / 1000000, 6, 5⟩, 1, 1⟩] := by
    norm_num [errC3]
  have hdec : decide (errC3 [⟨⟨6000001 / 1000000, 5, 5⟩, 1, 1⟩] >
      errC3 stP0.parts + 1 / 1000) = false := by
    simp only [decide_eq_false_iff_not]
    norm_num [errC3, stP0]
  refine ⟨?_, by norm_num [errC3], by norm_num [errC3, stP0], by norm_num⟩
  simp only [do_levmarq_particles_step]
  rw [hd0, hd1, rollback_up1, except_bind_ok]
  rw [zipSub_singleton, rollback_up2, except_bind_ok]
  rw [if_pos hbad]
  rw [negD_singleton, zipSub_singleton, rollback_up3, except_bind_ok]
  rw [hdec, if_pos hlt, if_pos hlt]
  rfl
